import Mathlib

/-!
Verification development for the ERP notice-scraper service.

The definitions below are a shallow embedding of the TypeScript sources:

* `src/utils/parseDate.ts`      → `parseAndValidateDate`
* `src/utils/getOTP.ts`         → `getOTPWithBackoff`
* `src/playwright/notice.ts`    → `NoticeScraper.scrape` / `processRow` (the
  second, current revision in the file, the one the service imports)
* `src/playwright/session.ts`   → `ErpSession.login` / `isSessionAlive` /
  `_saveSessionToken` / `close` (second, current revision)
* `src/schema/session.ts`       → `AuthCredentialsSchema`
* `src/services/notice.ts`      → `scrapeNotices`
* `src/utils/sessionToken.ts`   → session-token file store

Browser interactions (navigation outcomes, element text contents, cookie
jars left by each navigation, fetch responses) are effects of the external
portal; each such effect is modelled by a field of an environment record
that the embedded function reads, exactly at the program point where the
source awaits it.  Machine integers are modelled by `Nat`/`Int`
(JavaScript numbers hold these values exactly in the ranges involved).
-/

namespace ErpScraper

/-! ## JavaScript string primitives -/

/-- Characters removed by JavaScript `String.prototype.trim` (the ASCII and
common Unicode white-space and line-terminator code points). -/
def isJsWhitespace (c : Char) : Bool :=
  c.toNat = 9 || c.toNat = 10 || c.toNat = 11 || c.toNat = 12 ||
  c.toNat = 13 || c.toNat = 32 || c.toNat = 160 || c.toNat = 0x2028 ||
  c.toNat = 0x2029 || c.toNat = 0xFEFF

/-- Trim white space from both ends of a character list. -/
def trimChars (l : List Char) : List Char :=
  ((l.dropWhile isJsWhitespace).reverse.dropWhile isJsWhitespace).reverse

/-- Model of JavaScript `s.trim()`. -/
def jsTrim (s : String) : String :=
  String.mk (trimChars s.data)

def splitCharsAux (sep : Char) : List Char → List Char → List String
  | [], acc => [String.mk acc.reverse]
  | c :: rest, acc =>
    if c = sep then String.mk acc.reverse :: splitCharsAux sep rest []
    else splitCharsAux sep rest (c :: acc)

/-- Model of JavaScript `s.split(sep)` for a one-character separator:
empty segments are kept, and an empty input yields `[""]`. -/
def jsSplit (s : String) (sep : Char) : List String :=
  splitCharsAux sep s.data []

theorem dropWhile_append_singleton {p : Char → Bool} {a : Char}
    (l : List Char) (h : p a = false) :
    (l ++ [a]).dropWhile p = l.dropWhile p ++ [a] := by
  induction l with
  | nil => simp [List.dropWhile, h]
  | cons b t ih =>
    by_cases hb : p b
    · simp [List.dropWhile, hb, ih]
    · simp [List.dropWhile, hb]

theorem dropWhile_head_false {p : Char → Bool} :
    ∀ l : List Char, l.dropWhile p = [] ∨
      ∃ a t, l.dropWhile p = a :: t ∧ p a = false := by
  intro l
  induction l with
  | nil => exact Or.inl rfl
  | cons b t ih =>
    by_cases hb : p b
    · simpa [List.dropWhile, hb] using ih
    · exact Or.inr ⟨b, t, by simp [List.dropWhile, hb], by simpa using hb⟩

theorem dropWhile_cons_false {p : Char → Bool} {a : Char} {t : List Char}
    (h : p a = false) : (a :: t).dropWhile p = a :: t := by
  simp [List.dropWhile, h]

/-- `trimChars` is idempotent. -/
theorem trimChars_idem (l : List Char) : trimChars (trimChars l) = trimChars l := by
  unfold trimChars
  rcases dropWhile_head_false (p := isJsWhitespace) l with h0 | ⟨a, t, h0, ha⟩
  · simp [h0]
  · rw [h0]
    have hrev : (a :: t).reverse = t.reverse ++ [a] := by simp
    rw [hrev, dropWhile_append_singleton _ ha]
    have hrr : ((t.reverse.dropWhile isJsWhitespace ++ [a]).reverse) =
        a :: (t.reverse.dropWhile isJsWhitespace).reverse := by simp
    rw [hrr]
    rw [dropWhile_cons_false ha]
    have : (a :: (t.reverse.dropWhile isJsWhitespace).reverse).reverse =
        t.reverse.dropWhile isJsWhitespace ++ [a] := by simp
    rw [this]
    rcases dropWhile_head_false (p := isJsWhitespace) t.reverse with h1 | ⟨b, u, h1, hb⟩
    · rw [h1]
      simp [List.dropWhile, ha]
    · rw [h1, List.cons_append, dropWhile_cons_false hb]
      simp

theorem jsTrim_idem (s : String) : jsTrim (jsTrim s) = jsTrim s := by
  unfold jsTrim
  rw [show (String.mk (trimChars s.data)).data = trimChars s.data from rfl]
  rw [trimChars_idem]

/-! ## The proleptic Gregorian calendar, as used by ECMAScript `Date`

`daysFromCivil` computes the day number (days since 1970-01-01) of a civil
date, following the standard era-based algorithm; it agrees with the
ECMAScript `MakeDay` abstract operation on in-range arguments. -/

/-- Day number of the civil date `y-m-d` (year `y ≥ 1`, month `1..12`,
day-of-month `d ≥ 1`; out-of-range `d` simply counts onward, matching
`MakeDay`'s `+ dt - 1` behaviour via the caller). -/
def daysFromCivil (y m d : Nat) : Int :=
  let yAdj : Nat := if m ≤ 2 then y - 1 else y
  let era : Nat := yAdj / 400
  let yoe : Nat := yAdj % 400
  let mp : Nat := if 2 < m then m - 3 else m + 9
  let doy : Nat := (153 * mp + 2) / 5 + (d - 1)
  let doe : Nat := yoe * 365 + yoe / 4 - yoe / 100 + doy
  (era : Int) * 146097 + (doe : Int) - 719468

/-- Inverse of `daysFromCivil`: civil date of a day number. -/
def civilFromDays (z0 : Int) : Int × Nat × Nat :=
  let z : Int := z0 + 719468
  let era : Int := Int.fdiv z 146097
  let doe : Nat := (z - era * 146097).toNat
  let yoe : Nat := (doe - doe / 1460 + doe / 36524 - doe / 146096) / 365
  let doy : Nat := doe - (365 * yoe + yoe / 4 - yoe / 100)
  let mp : Nat := (5 * doy + 2) / 153
  let d : Nat := doy - (153 * mp + 2) / 5 + 1
  let m : Nat := if mp < 10 then mp + 3 else mp - 9
  (era * 400 + (yoe : Int) + (if m ≤ 2 then 1 else 0), m, d)

/-- ECMAScript `TimeClip`: a time value is valid iff its magnitude is at
most 8.64e15 milliseconds; otherwise the `Date` is invalid (`NaN`). -/
def timeClip (t : Int) : Option Int :=
  if t.natAbs ≤ 8640000000000000 then some t else none

/-- ECMAScript `MakeFullYear` (as applied by `Date.UTC`): integer years
`0..99` are interpreted as `1900..1999`. -/
def makeFullYear (y : Nat) : Nat :=
  if y ≤ 99 then 1900 + y else y

/-- Model of `Date.UTC(y, mIdx, d, h, mi)` for nonnegative arguments
(as produced by `parseInt` on the matched digit groups): the month index
may be out of `0..11` and the day out of range; both roll over exactly as
`MakeDay` prescribes.  Returns `none` when the result is an invalid date. -/
def jsDateUTC (y : Nat) (mIdx : Int) (d h mi : Nat) : Option Int :=
  let yr : Nat := makeFullYear y
  let ym : Int := (yr : Int) + Int.fdiv mIdx 12
  let mn : Nat := (mIdx % 12).toNat
  let days : Int := daysFromCivil ym.toNat (mn + 1) 1 + (d : Int) - 1
  timeClip (days * 86400000 + (h : Int) * 3600000 + (mi : Int) * 60000)

/-! ## `src/utils/parseDate.ts` -/

/-- Numeric value of a decimal digit character (`\d` is `[0-9]`). -/
def digitVal (c : Char) : Option Nat :=
  if 48 ≤ c.toNat ∧ c.toNat ≤ 57 then some (c.toNat - 48) else none

def parse2 (a b : Char) : Option Nat :=
  match digitVal a, digitVal b with
  | some x, some y => some (10 * x + y)
  | _, _ => none

def parse4 (a b c d : Char) : Option Nat :=
  match digitVal a, digitVal b, digitVal c, digitVal d with
  | some w, some x, some y, some z => some (1000 * w + 100 * x + 10 * y + z)
  | _, _, _, _ => none

/-- The regex `^(\d{2})-(\d{2})-(\d{4}) (\d{2}):(\d{2})$` of
`parseAndValidateDate`, returning the five captured groups as the numbers
`parseInt` yields on them. -/
def dateShapeMatch (s : String) : Option (Nat × Nat × Nat × Nat × Nat) :=
  match s.data with
  | [d1, d2, '-', m1, m2, '-', y1, y2, y3, y4, ' ', h1, h2, ':', n1, n2] =>
    match parse2 d1 d2, parse2 m1 m2, parse4 y1 y2 y3 y4,
        parse2 h1 h2, parse2 n1 n2 with
    | some dd, some mm, some yyyy, some hh, some mi =>
      some (dd, mm, yyyy, hh, mi)
    | _, _, _, _, _ => none
  | _ => none

def padNat (width n : Nat) : String :=
  let s := toString n
  String.mk (List.replicate (width - s.length) '0') ++ s

/-- Model of `Date.prototype.toISOString` on a valid time value. -/
def toISOString (t : Int) : String :=
  let days : Int := Int.fdiv t 86400000
  let msInDay : Nat := (Int.emod t 86400000).toNat
  let ymd := civilFromDays days
  let y : Int := ymd.1
  let yearStr : String :=
    if 0 ≤ y ∧ y ≤ 9999 then padNat 4 y.toNat
    else if y < 0 then "-" ++ padNat 6 (-y).toNat
    else "+" ++ padNat 6 y.toNat
  yearStr ++ "-" ++ padNat 2 ymd.2.1 ++ "-" ++ padNat 2 ymd.2.2 ++ "T" ++
    padNat 2 (msInDay / 3600000) ++ ":" ++
    padNat 2 (msInDay % 3600000 / 60000) ++ ":" ++
    padNat 2 (msInDay % 60000 / 1000) ++ "." ++
    padNat 3 (msInDay % 1000) ++ "Z"

/-- `parseAndValidateDate` from `src/utils/parseDate.ts`: match the fixed
regex, feed the groups to `Date.UTC` (month made 0-indexed), reject `NaN`,
and return the ISO string. -/
def parseAndValidateDate (dateStr : String) : Except String String :=
  match dateShapeMatch dateStr with
  | none => .error "Invalid date format. Expected \x27DD-MM-YYYY HH:mm\x27."
  | some (dd, mm, yyyy, hh, mi) =>
    match jsDateUTC yyyy ((mm : Int) - 1) dd hh mi with
    | none => .error "Invalid date value provided."
    | some t => .ok (toISOString t)

/-! ## ECMAScript `new Date(string)` on the Date Time String Format

The scrape loop reassembles each row's `DD-MM-YYYY HH:mm` text into
`YYYY-MM-DDTHH:mm` and hands it to the `Date` constructor.  We model the
ECMAScript Date Time String Format parser on exactly that arity
(`YYYY-MM-DDTHH:mm`); strings outside the format (including the engine's
legacy fallback formats, none of which accept the garbage strings produced
here) parse to an invalid date.  A date-time without an offset designates
local time; the model uses a zero offset, a uniform shift that does not
affect any claim (all claims quantify over the watermark). -/

def isLeapYear (y : Nat) : Bool :=
  (y % 4 = 0 && ¬ y % 100 = 0) || y % 400 = 0

def daysInMonth (y m : Nat) : Nat :=
  [31, if isLeapYear y then 29 else 28,
   31, 30, 31, 30, 31, 31, 30, 31, 30, 31].getD (m - 1) 0

def jsParseDate (s : String) : Option Int :=
  match s.data with
  | [y1, y2, y3, y4, '-', m1, m2, '-', d1, d2, 'T', h1, h2, ':', n1, n2] =>
    match parse4 y1 y2 y3 y4, parse2 m1 m2, parse2 d1 d2,
        parse2 h1 h2, parse2 n1 n2 with
    | some y, some m, some d, some h, some mi =>
      if 1 ≤ m ∧ m ≤ 12 ∧ 1 ≤ d ∧ d ≤ daysInMonth y m ∧
          (h ≤ 23 ∨ (h = 24 ∧ mi = 0)) ∧ mi ≤ 59 then
        timeClip (daysFromCivil y m d * 86400000 +
          (h : Int) * 3600000 + (mi : Int) * 60000)
      else none
    | _, _, _, _, _ => none
  | _ => none

/-! ## `src/playwright/notice.ts` — `NoticeScraper`

A `Row` packages what the browser yields for one `tr.jqgrow` row: the text
content of each cell the scraper reads (`none` models a `null` text
content), the outcome of the detail-dialog interaction, and the outcomes of
the document dialog / URL normalisation / storage upload.  The navigation
preamble of `scrape` (CDC menu traversal, iframe click, grid wait) is the
fatal-on-failure part that precedes the loop and is not modelled; `scrape`
below is the row loop that the claims are about. -/

structure Row where
  noticeat : Option String       -- cell `grid54_noticeat`
  typeText : Option String       -- cell `grid54_type`
  categoryText : Option String   -- cell `grid54_category`
  companyText : Option String    -- cell `grid54_company`
  dialogHtml : Option String     -- `#printableArea` innerHTML; `none` models
                                 -- a dialog/iframe failure (the catch path)
  noticeTitle : Option String    -- `title` attribute of the notice link
  view1Text : Option String      -- cell `grid54_view1` link text
  docDialog : Option (Option String)  -- outer `none`: document dialog
                                 -- interaction failed; inner: iframe `src`
  urlParseOk : Bool              -- whether `new URL(src)` succeeds
  uploadResult : Option String   -- storage upload outcome for the document
deriving DecidableEq, Repr

structure Notice where
  type : String
  subject : String
  company : String
  noticeAt : String
  noticeText : String
  documentUrl : Option String
deriving DecidableEq, Repr

/-- JavaScript `x?.trim() || "N/A"`: `undefined` and the empty trimmed
string both fall back to the sentinel. -/
def orNA (o : Option String) : String :=
  match o with
  | none => "N/A"
  | some s => if jsTrim s = "" then "N/A" else jsTrim s

/-- Tail of the regex `/<br\s*\/?>/i` after the `br`: any white space, an
optional `/`, then `>`; returns the remainder after the closing `>`. -/
def brTagEnd : List Char → Option (List Char)
  | [] => none
  | c :: rest =>
    if c = '>' then some rest
    else if c = '/' then
      match rest with
      | [] => none
      | r2 :: rest2 => if r2 = '>' then some rest2 else none
    else if c = ' ' ∨ c = '\t' ∨ c = '\n' ∨ c = '\r' then brTagEnd rest
    else none

theorem brTagEnd_length : ∀ l after, brTagEnd l = some after →
    after.length < l.length := by
  intro l
  induction l with
  | nil => intro after h; simp [brTagEnd] at h
  | cons c rest ih =>
    intro after h
    simp only [brTagEnd] at h
    by_cases h1 : c = '>'
    · simp [h1] at h
      simp [← h]
    · by_cases h2 : c = '/'
      · simp [h1, h2] at h
        cases rest with
        | nil => simp at h
        | cons r2 rest2 =>
          by_cases h4 : r2 = '>'
          · simp [h4] at h
            simp [← h]
            omega
          · simp [h4] at h
      · by_cases h3 : c = ' ' ∨ c = '\t' ∨ c = '\n' ∨ c = '\r'
        · simp [h1, h2, h3] at h
          have := ih after h
          simp
          omega
        · simp [h1, h2, h3] at h

/-- Scanner for splitting on the regex `/<br\s*\/?>/i` (case-insensitive
`<br>` tags): accumulates the current segment in `acc` (reversed). -/
def splitBrAux : List Char → List Char → List (List Char)
  | [], acc => [acc.reverse]
  | c :: rest, acc =>
    if c = '<' then
      match rest with
      | b :: r :: rest2 =>
        if (b = 'b' ∨ b = 'B') ∧ (r = 'r' ∨ r = 'R') then
          match hbr : brTagEnd rest2 with
          | some after => acc.reverse :: splitBrAux after []
          | none => splitBrAux (b :: r :: rest2) ('<' :: acc)
        else splitBrAux (b :: r :: rest2) ('<' :: acc)
      | [b] => splitBrAux [b] ('<' :: acc)
      | [] => splitBrAux [] ('<' :: acc)
    else splitBrAux rest (c :: acc)
termination_by l _ => l.length
decreasing_by
  · have := brTagEnd_length rest2 after hbr
    simp
    omega
  all_goals simp

/-- Remainder after the first `>` (the closing bracket of `/<[^>]+>/`). -/
def tagClose : List Char → Option (List Char)
  | [] => none
  | c :: rest => if c = '>' then some rest else tagClose rest

theorem tagClose_length : ∀ l after, tagClose l = some after →
    after.length < l.length := by
  intro l
  induction l with
  | nil => intro after h; simp [tagClose] at h
  | cons c rest ih =>
    intro after h
    simp only [tagClose] at h
    by_cases h1 : c = '>'
    · simp [h1] at h
      simp [← h]
    · simp [h1] at h
      have := ih after h
      simp
      omega

/-- Strip the regex `/<[^>]+>/g`: every `<`…`>` span with a nonempty body
is removed; a `<` with no nonempty-body close is kept verbatim. -/
def stripTagsAux : List Char → List Char
  | [] => []
  | c :: rest =>
    if c = '<' then
      match rest with
      | [] => ['<']
      | r :: rest2 =>
        if r = '>' then '<' :: stripTagsAux (r :: rest2)
        else
          match htc : tagClose (r :: rest2) with
          | some after => stripTagsAux after
          | none => '<' :: r :: stripTagsAux rest2
    else c :: stripTagsAux rest
termination_by l => l.length
decreasing_by
  all_goals
    first
      | (have hlen := tagClose_length _ after htc
         simp at hlen ⊢
         omega)
      | (simp
         try omega)

/-- The body transformation of `extractNoticeText`: split on `<br>` tags,
drop the first four segments, join with newlines, strip all tags, trim. -/
def stripNoticeHtml (rawHtml : String) : String :=
  let lines := splitBrAux rawHtml.data []
  let joined := (lines.drop 4).map String.mk |>.intersperse "\n" |>.foldl (· ++ ·) ""
  jsTrim (String.mk (stripTagsAux joined.data))

/-- `extractNoticeText`: dialog path on success, `title`-attribute fallback
(`?.trim() || ""`) when the dialog interaction fails. -/
def extractNoticeText (r : Row) : String :=
  match r.dialogHtml with
  | some rawHtml => stripNoticeHtml rawHtml
  | none =>
    match r.noticeTitle with
    | some t => jsTrim t
    | none => ""

/-- `extractDocumentUrl`: requires the download-link text to be exactly
`"Download"`; any dialog failure, missing/empty `src`, or `new URL` throw
yields `null`.  WHATWG URL normalisation of a successfully parsed absolute
URL is modelled as the identity. -/
def extractDocumentUrl (r : Row) : Option String :=
  if ¬ (r.view1Text.map jsTrim = some "Download") then none
  else
    match r.docDialog with
    | none => none
    | some src? =>
      match src? with
      | none => none
      | some src =>
        if src = "" then none
        else if r.urlParseOk then some src else none

/-- `processRow`: extract the four cell fields (sentinel `"N/A"` on
missing/blank), the body text, and the document URL; when a protected URL
was found, the row's `documentUrl` is the upload outcome. -/
def processRow (r : Row) : Notice :=
  { type := orNA r.typeText
    subject := orNA r.categoryText
    company := orNA r.companyText
    noticeAt := orNA r.noticeat
    noticeText := extractNoticeText r
    documentUrl :=
      match extractDocumentUrl r with
      | none => none
      | some _ => r.uploadResult }

/-- The timestamp reassembly of the scrape loop:
`noticeAtText.split(" ")` destructured as `[datePart, timePart]`,
`datePart.split("-")` destructured as `[day, month, year]`, then
``new Date(`${year}-${month}-${day}T${timePart}`)``.  A missing
destructured component is `undefined` and interpolates as the string
`"undefined"`. -/
def parseRowDate (noticeAtText : String) : Option Int :=
  let parts := jsSplit noticeAtText ' '
  let datePart := parts.getD 0 ""
  let timePart := parts.getD 1 "undefined"
  let dparts := jsSplit datePart '-'
  let day := dparts.getD 0 ""
  let month := dparts.getD 1 "undefined"
  let year := dparts.getD 2 "undefined"
  jsParseDate (year ++ "-" ++ month ++ "-" ++ day ++ "T" ++ timePart)

/-- JavaScript `d1 <= d2` on `Date` objects: numeric comparison of time
values; any comparison involving an invalid date (`NaN`) is `false`. -/
def jsDateLE : Option Int → Option Int → Bool
  | some a, some b => a ≤ b
  | _, _ => false

/-- The row loop of `NoticeScraper.scrape` (second revision, the one in
use): for each row, read and trim the `noticeat` text (skip the row when
it is missing or blank), reassemble and parse the date, `break` when
`noticeDate <= lastKnownDate`, otherwise process the row and push the
notice.  `lastKnownDate` is `new Date(this.LAST_NOTICE_AT)`.  Per-row
processing failures are caught and logged in the source; every effect
inside `processRow` is modelled by its outcome, so the modelled
`processRow` is total. -/
def scrape (lastKnownDate : Option Int) : List Row → List Notice
  | [] => []
  | r :: rest =>
    match r.noticeat with
    | none => scrape lastKnownDate rest
    | some s =>
      if jsTrim s = "" then scrape lastKnownDate rest
      else
        if jsDateLE (parseRowDate (jsTrim s)) lastKnownDate then []
        else processRow r :: scrape lastKnownDate rest

/-- The parsed timestamp of a row, as the loop computes it: `none` when the
cell is missing, blank, or reassembles to an invalid date. -/
def rowParsedTime (r : Row) : Option Int :=
  match r.noticeat with
  | none => none
  | some s => if jsTrim s = "" then none else parseRowDate (jsTrim s)

/-- Defaulted parsed time, meaningful under an all-rows-parse hypothesis. -/
def rowTimeD (r : Row) : Int :=
  (rowParsedTime r).getD 0

/-! ## Claim C10: `parseAndValidateDate` never reaches its range check -/

theorem digitVal_le {c : Char} {n : Nat} (h : digitVal c = some n) : n ≤ 9 := by
  unfold digitVal at h
  split at h
  · injection h with h'
    omega
  · exact absurd h (by simp)

theorem parse2_le {a b : Char} {n : Nat} (h : parse2 a b = some n) : n ≤ 99 := by
  unfold parse2 at h
  split at h
  · rename_i x y hx hy
    injection h with h'
    have := digitVal_le hx
    have := digitVal_le hy
    omega
  · exact absurd h (by simp)

theorem parse4_le {a b c d : Char} {n : Nat} (h : parse4 a b c d = some n) :
    n ≤ 9999 := by
  unfold parse4 at h
  split at h
  · rename_i w x y z hw hx hy hz
    injection h with h'
    have := digitVal_le hw
    have := digitVal_le hx
    have := digitVal_le hy
    have := digitVal_le hz
    omega
  · exact absurd h (by simp)

theorem dateShapeMatch_bounds {s : String} {dd mm yyyy hh mi : Nat}
    (h : dateShapeMatch s = some (dd, mm, yyyy, hh, mi)) :
    dd ≤ 99 ∧ mm ≤ 99 ∧ yyyy ≤ 9999 ∧ hh ≤ 99 ∧ mi ≤ 99 := by
  unfold dateShapeMatch at h
  split at h
  · split at h
    · rename_i hdd hmm hyyyy hhh hmi
      injection h with h'
      simp only [Prod.mk.injEq] at h'
      obtain ⟨rfl, rfl, rfl, rfl, rfl⟩ := h'
      exact ⟨parse2_le hdd, parse2_le hmm, parse4_le hyyyy,
        parse2_le hhh, parse2_le hmi⟩
    · exact absurd h (by simp)
  · exact absurd h (by simp)

/-- The day number of any civil date reachable from `Date.UTC` on the
matched digit groups stays far inside the `TimeClip` range. -/
theorem daysFromCivil_bounds (y m d : Nat) (hy : y ≤ 10008) (hm : m ≤ 12)
    (hd : d ≤ 99) :
    -719468 ≤ daysFromCivil y m d ∧ daysFromCivil y m d ≤ 3300000 := by
  simp only [daysFromCivil]
  split_ifs <;> omega

theorem jsDateUTC_isSome (y : Nat) (mIdx : Int) (d h mi : Nat)
    (hy : y ≤ 9999) (hm1 : -1 ≤ mIdx) (hm2 : mIdx ≤ 98)
    (hd : d ≤ 99) (hh : h ≤ 99) (hmi : mi ≤ 99) :
    (jsDateUTC y mIdx d h mi).isSome := by
  simp only [jsDateUTC]
  rw [Int.fdiv_eq_ediv _ (by omega)]
  have hyr : 100 ≤ makeFullYear y ∧ makeFullYear y ≤ 9999 := by
    unfold makeFullYear
    split <;> omega
  have hq : -1 ≤ mIdx / 12 ∧ mIdx / 12 ≤ 8 := by omega
  have hr : 0 ≤ mIdx % 12 ∧ mIdx % 12 < 12 := by omega
  have hymN : ((makeFullYear y : Int) + mIdx / 12).toNat ≤ 10008 := by omega
  have hmn : (mIdx % 12).toNat + 1 ≤ 12 := by omega
  have hB := daysFromCivil_bounds ((makeFullYear y : Int) + mIdx / 12).toNat
    ((mIdx % 12).toNat + 1) 1 hymN hmn (by omega)
  simp only [timeClip]
  rw [if_pos (by omega)]
  rfl

theorem jsDateUTC_eq_some (y : Nat) (mIdx : Int) (d h mi : Nat)
    (hy : y ≤ 9999) (hm1 : -1 ≤ mIdx) (hm2 : mIdx ≤ 98)
    (hd : d ≤ 99) (hh : h ≤ 99) (hmi : mi ≤ 99) :
    ∃ t, jsDateUTC y mIdx d h mi = some t :=
  Option.isSome_iff_exists.mp (jsDateUTC_isSome y mIdx d h mi hy hm1 hm2 hd hh hmi)

/-- Claim C10: a string matching the digit-shape regex of
`parseAndValidateDate` always produces a valid (rolled-over) date, so the
function returns an ISO string and never reaches its second error branch
(`"Invalid date value provided."`); it throws the format error exactly for
strings the regex rejects. -/
theorem parseAndValidateDate_never_invalid_value (s : String) :
    (∀ e, parseAndValidateDate s = .error e →
      e = "Invalid date format. Expected \x27DD-MM-YYYY HH:mm\x27.") ∧
    ((dateShapeMatch s).isSome = true →
      ∃ iso, parseAndValidateDate s = .ok iso) ∧
    ((dateShapeMatch s).isSome = false →
      parseAndValidateDate s =
        .error "Invalid date format. Expected \x27DD-MM-YYYY HH:mm\x27.") := by
  refine ⟨?_, ?_, ?_⟩
  · intro e he
    unfold parseAndValidateDate at he
    split at he
    · injection he with he'
      exact he'.symm
    · rename_i dd mm yyyy hh mi hm
      split at he
      · rename_i hnone
        have hb := dateShapeMatch_bounds hm
        obtain ⟨t, ht⟩ := jsDateUTC_eq_some yyyy ((mm : Int) - 1) dd hh mi
          (by omega) (by omega) (by omega) (by omega) (by omega) (by omega)
        rw [ht] at hnone
        exact absurd hnone (by simp)
      · exact absurd he (by simp)
  · intro hsome
    unfold parseAndValidateDate
    split
    · rename_i hm
      rw [hm] at hsome
      simp at hsome
    · rename_i dd mm yyyy hh mi hm
      split
      · rename_i hnone
        have hb := dateShapeMatch_bounds hm
        obtain ⟨t, ht⟩ := jsDateUTC_eq_some yyyy ((mm : Int) - 1) dd hh mi
          (by omega) (by omega) (by omega) (by omega) (by omega) (by omega)
        rw [ht] at hnone
        exact absurd hnone (by simp)
      · exact ⟨_, rfl⟩
  · intro hnone
    unfold parseAndValidateDate
    split
    · rfl
    · rename_i dd mm yyyy hh mi hm
      rw [hm] at hnone
      simp at hnone

/-- Witness for C10: `"13-13-2025 99:99"` matches the regex with month 13,
day 13 in-range but hour 99 and minute 99 far out of calendar range; the
function still succeeds (the components roll over), and a non-matching
string gets the format error. -/
theorem parseAndValidateDate_never_invalid_value_witness :
    ((dateShapeMatch "13-13-2025 99:99").isSome = true ∧
      ∃ iso, parseAndValidateDate "13-13-2025 99:99" = .ok iso) ∧
    ((dateShapeMatch "totally-not-a-date").isSome = false ∧
      parseAndValidateDate "totally-not-a-date" =
        .error "Invalid date format. Expected \x27DD-MM-YYYY HH:mm\x27.") :=
  ⟨⟨by decide,
    (parseAndValidateDate_never_invalid_value "13-13-2025 99:99").2.1 (by decide)⟩,
   ⟨by decide,
    (parseAndValidateDate_never_invalid_value "totally-not-a-date").2.2 (by decide)⟩⟩

/-! ## Claims C1 and C4: the scrape loop -/

theorem rowParsedTime_eq_some {r : Row} {t : Int} :
    rowParsedTime r = some t ↔
      ∃ s, r.noticeat = some s ∧ ¬ jsTrim s = "" ∧
        parseRowDate (jsTrim s) = some t := by
  unfold rowParsedTime
  cases hn : r.noticeat with
  | none => simp
  | some s =>
    by_cases hb : jsTrim s = ""
    · simp [hb]
    · simp [hb]

/-- `Chain'` is preserved by `takeWhile` (the kept part is a prefix). -/
theorem chain'_takeWhile {α : Type} {R : α → α → Prop} {p : α → Bool} :
    ∀ l : List α, List.Chain' R l → List.Chain' R (l.takeWhile p) := by
  intro l
  induction l with
  | nil => intro _; simp
  | cons a rest ih =>
    intro hc
    rw [List.takeWhile_cons]
    split
    · rw [List.chain'_cons'] at hc ⊢
      refine ⟨?_, ih hc.2⟩
      intro b hb
      apply hc.1
      cases rest with
      | nil => simp at hb
      | cons c rest2 =>
        rw [List.takeWhile_cons] at hb
        split at hb
        · simp at hb
          simp [hb]
        · simp at hb
    · simp

/-- Claim C1: when every row's timestamp cell parses and the grid order is
strictly descending in parsed time, `scrape` returns exactly the processed
prefix of rows strictly newer than the watermark (so: only notices newer
than the watermark, in source row order, and enumeration stops at the
first row at or before the watermark, examining nothing beyond it), and
the returned prefix is itself strictly descending. -/
theorem scrape_watermark_prefix (w : Int) (rows : List Row)
    (hp : ∀ r ∈ rows, (rowParsedTime r).isSome = true)
    (hs : List.Chain' (fun a b => rowTimeD b < rowTimeD a) rows) :
    scrape (some w) rows =
      (rows.takeWhile (fun r => decide (w < rowTimeD r))).map processRow ∧
    (∀ r ∈ rows.takeWhile (fun r => decide (w < rowTimeD r)), w < rowTimeD r) ∧
    List.Chain' (fun a b => rowTimeD b < rowTimeD a)
      (rows.takeWhile (fun r => decide (w < rowTimeD r))) := by
  refine ⟨?_, ?_, chain'_takeWhile rows hs⟩
  · clear hs
    induction rows with
    | nil => rfl
    | cons r rest ih =>
      have hr : (rowParsedTime r).isSome = true := hp r (by simp)
      obtain ⟨t, ht⟩ := Option.isSome_iff_exists.mp hr
      obtain ⟨s, hn, hb, hparse⟩ := rowParsedTime_eq_some.mp ht
      have htD : rowTimeD r = t := by
        unfold rowTimeD
        rw [ht]
        rfl
      have ihr := ih (fun r2 h2 => hp r2 (by simp [h2]))
      by_cases hle : t ≤ w
      · have hnlt : ¬ w < t := by omega
        simp [scrape, hn, hb, hparse, jsDateLE, List.takeWhile_cons, htD, hle, hnlt]
      · have hlt : w < t := by omega
        simp [scrape, hn, hb, hparse, jsDateLE, List.takeWhile_cons, htD, hle, hlt, ihr]
  · intro r hr
    have := List.mem_takeWhile_imp hr
    simpa using this

/-- A concrete grid row whose timestamp cell holds `ts` (detail dialog
fails over to the title attribute; no document link). -/
def sampleRow (ts : String) : Row :=
  { noticeat := some ts
    typeText := some "Internship"
    categoryText := some "Placement"
    companyText := some "ACME"
    dialogHtml := none
    noticeTitle := some "Short title"
    view1Text := none
    docDialog := none
    urlParseOk := false
    uploadResult := none }

/-- Witness for C1: the spec's end-to-end scenario.  Watermark
`2023-01-01T00:00`, rows `05-01-2023 10:00`, `03-01-2023 09:00`,
`31-12-2022 23:00` newest-first: exactly the first two notices are
returned, in that order, and the loop stops at the third row. -/
theorem scrape_watermark_prefix_witness :
    scrape (some 1672531200000)
      [sampleRow "05-01-2023 10:00", sampleRow "03-01-2023 09:00",
       sampleRow "31-12-2022 23:00"] =
      [processRow (sampleRow "05-01-2023 10:00"),
       processRow (sampleRow "03-01-2023 09:00")] := by
  have h := scrape_watermark_prefix 1672531200000
    [sampleRow "05-01-2023 10:00", sampleRow "03-01-2023 09:00",
     sampleRow "31-12-2022 23:00"] (by decide)
    (by
      rw [List.chain'_cons, List.chain'_cons]
      refine ⟨by decide, by decide, List.chain'_singleton _⟩)
  rw [h.1]
  rfl

/-- Counterexample to C4 as stated: a row whose timestamp cell is the
non-blank malformed string `"not a date"` parses to an invalid date; the
invalid date compares `false` against the watermark, so the row is NOT
excluded — it is processed and returned (between its valid neighbours),
rather than being skipped. -/
theorem scrape_malformed_row_not_excluded :
    parseRowDate (jsTrim "not a date") = none ∧
    scrape (some 1672531200000)
      [sampleRow "05-01-2023 10:00", sampleRow "not a date",
       sampleRow "03-01-2023 09:00"] =
      [processRow (sampleRow "05-01-2023 10:00"),
       processRow (sampleRow "not a date"),
       processRow (sampleRow "03-01-2023 09:00")] := by
  constructor
  · rfl
  · rfl

/-- Claim C4 (amended): a row whose timestamp cell is missing or blank
after trimming is skipped (excluded, the scan continues with the remaining
rows); a row whose timestamp is non-blank but malformed parses to an
invalid date, whose watermark comparison is `false`, so the row is NOT
excluded: it is processed and included, the scrape does not abort, and the
remaining rows are still scanned as usual. -/
theorem scrape_blank_skipped_malformed_kept (w : Int) (r : Row)
    (rest : List Row) :
    ((r.noticeat = none ∨ ∃ s, r.noticeat = some s ∧ jsTrim s = "") →
      scrape (some w) (r :: rest) = scrape (some w) rest) ∧
    (∀ s, r.noticeat = some s → ¬ jsTrim s = "" →
      parseRowDate (jsTrim s) = none →
      scrape (some w) (r :: rest) = processRow r :: scrape (some w) rest) := by
  constructor
  · rintro (hn | ⟨s, hn, hb⟩)
    · simp [scrape, hn]
    · simp [scrape, hn, hb]
  · intro s hn hb hparse
    simp [scrape, hn, hb, hparse, jsDateLE]

/-- Witness for the amended C4: a blank-timestamp row is dropped and a
malformed-timestamp row is kept, with the subsequent valid row still
scanned either way. -/
theorem scrape_blank_skipped_malformed_kept_witness :
    (scrape (some 0) [sampleRow "   ", sampleRow "03-01-2023 09:00"] =
      scrape (some 0) [sampleRow "03-01-2023 09:00"]) ∧
    (scrape (some 0) [sampleRow "garbage", sampleRow "03-01-2023 09:00"] =
      processRow (sampleRow "garbage") ::
        scrape (some 0) [sampleRow "03-01-2023 09:00"]) :=
  ⟨(scrape_blank_skipped_malformed_kept 0 (sampleRow "   ")
      [sampleRow "03-01-2023 09:00"]).1 (Or.inr ⟨"   ", rfl, by decide⟩),
   (scrape_blank_skipped_malformed_kept 0 (sampleRow "garbage")
      [sampleRow "03-01-2023 09:00"]).2 "garbage" rfl (by decide) (by decide)⟩

/-! ## `src/utils/getOTP.ts` — `getOTPWithBackoff`

The fetch performed on each attempt is an external effect; `oc k` is the
response the service gives to attempt `k`.  The `requestedAt` timestamp is
captured once (`new Date().toISOString()` before the loop) and modelled as
the parameter `ts`; sleeping is modelled by recording the requested sleep
durations in order. -/

/-- What the OTP service returns on one attempt: a `response.ok` body
(whose `otp` field may be absent), a `404`, another HTTP error status with
a text body, or a thrown fetch/JSON error. -/
inductive AttemptOutcome where
  | success (otp : Option Int) (createdAt : String)
  | notFound
  | httpError (status : Nat) (body : String)
  | fetchThrows (msg : String)
deriving DecidableEq, Repr

/-- How one loop iteration classifies its attempt: return a code, retry
silently (404), or record a hard error for this attempt. -/
inductive AttemptRes where
  | returned (v : Int)
  | retry404
  | failed (msg : String)
deriving DecidableEq, Repr

/-- The body of the `try` block for one attempt: `response.ok` with a
truthy `data.otp` returns it (`0` is falsy in JavaScript, hence treated as
missing); `404` is a silent retry; anything else throws and is caught,
becoming the attempt's `lastError`. -/
def attemptResult : AttemptOutcome → AttemptRes
  | .success (some v) _ =>
    if v = 0 then .failed "API response was OK but OTP was missing or empty."
    else .returned v
  | .success none _ => .failed "API response was OK but OTP was missing or empty."
  | .httpError status body =>
    .failed ("API responded with HTTP " ++ toString status ++ ": " ++ body)
  | .notFound => .retry404
  | .fetchThrows msg => .failed msg

def isReturned : AttemptRes → Bool
  | .returned _ => true
  | _ => false

structure OtpOptions where
  maxAttempts : Nat := 4
  initialDelayMs : Nat := 10000
  backoffFactor : Nat := 2
  maxDelayMs : Nat := 30000
deriving DecidableEq, Repr

def defaultOtpOptions : OtpOptions := {}

def isUnreservedUriChar (c : Char) : Bool :=
  (65 ≤ c.toNat && c.toNat ≤ 90) || (97 ≤ c.toNat && c.toNat ≤ 122) ||
  (48 ≤ c.toNat && c.toNat ≤ 57) || c.toNat = 45 || c.toNat = 95 ||
  c.toNat = 46 || c.toNat = 33 || c.toNat = 126 || c.toNat = 42 ||
  c.toNat = 39 || c.toNat = 40 || c.toNat = 41

def hexDigitChar (n : Nat) : Char :=
  if n < 10 then Char.ofNat (48 + n) else Char.ofNat (55 + n)

def utf8Bytes (c : Char) : List Nat :=
  let n := c.toNat
  if n < 0x80 then [n]
  else if n < 0x800 then [0xC0 + n / 64, 0x80 + n % 64]
  else if n < 0x10000 then
    [0xE0 + n / 4096, 0x80 + n / 64 % 64, 0x80 + n % 64]
  else
    [0xF0 + n / 262144, 0x80 + n / 4096 % 64, 0x80 + n / 64 % 64,
     0x80 + n % 64]

/-- Model of JavaScript `encodeURIComponent`. -/
def encodeURIComponent (s : String) : String :=
  String.mk (s.data.foldr
    (fun c acc =>
      (if isUnreservedUriChar c then [c]
       else (utf8Bytes c).foldr
         (fun b a => '%' :: hexDigitChar (b / 16) :: hexDigitChar (b % 16) :: a)
         []) ++ acc)
    [])

/-- The lookup URL built on every attempt:
`OTP_API_URL/{rollNo}?requestedAt={timestamp}`. -/
def mkOtpUrl (api roll ts : String) : String :=
  api ++ "/" ++ encodeURIComponent roll ++ "?requestedAt=" ++
    encodeURIComponent ts

inductive OtpFailure where
  | badParams
  | timeout (cause : Option String)
deriving DecidableEq, Repr

deriving instance DecidableEq for Except

/-- One run of the polling loop: requested sleep durations in order (the
initial delay included by the wrapper), the URLs fetched, and the result. -/
structure OtpRun where
  sleeps : List Nat
  urls : List String
  result : Except OtpFailure Int
deriving DecidableEq, Repr

/-- The `while (currentAttempt <= maxAttempts)` loop; `fuel` keeps the
invariant `attempt + fuel = maxAttempts + 1`.  Between attempts the loop
sleeps the current delay and then grows it by `Math.min(delay * factor,
cap)`; `le` is the `lastError` accumulator set by the `catch`. -/
def otpLoop (api roll ts : String) (oc : Nat → AttemptOutcome)
    (maxA bf cap : Nat) :
    Nat → Nat → Nat → Option String → OtpRun
  | 0, _, _, le => ⟨[], [], .error (.timeout le)⟩
  | fuel + 1, attempt, curDelay, le =>
    let url := mkOtpUrl api roll ts
    match attemptResult (oc attempt) with
    | .returned v => ⟨[], [url], .ok v⟩
    | .retry404 =>
      if attempt < maxA then
        let r := otpLoop api roll ts oc maxA bf cap fuel (attempt + 1)
          (min (curDelay * bf) cap) le
        ⟨curDelay :: r.sleeps, url :: r.urls, r.result⟩
      else ⟨[], [url], .error (.timeout le)⟩
    | .failed m =>
      if attempt < maxA then
        let r := otpLoop api roll ts oc maxA bf cap fuel (attempt + 1)
          (min (curDelay * bf) cap) (some m)
        ⟨curDelay :: r.sleeps, url :: r.urls, r.result⟩
      else ⟨[], [url], .error (.timeout (some m))⟩

/-- `getOTPWithBackoff`: reject empty parameters, sleep `initialDelayMs`
once, then poll with attempt counter starting at 1 and retry delay
starting at 5000 ms. -/
def getOTPWithBackoff (OTP_API_URL rollNo ts : String)
    (oc : Nat → AttemptOutcome) (options : OtpOptions) : OtpRun :=
  if OTP_API_URL = "" ∨ rollNo = "" then ⟨[], [], .error .badParams⟩
  else
    let r := otpLoop OTP_API_URL rollNo ts oc options.maxAttempts
      options.backoffFactor options.maxDelayMs options.maxAttempts 1 5000 none
    ⟨options.initialDelayMs :: r.sleeps, r.urls, r.result⟩

/-! ## Claims C2 and C8 -/

def failMsg : AttemptRes → Option String
  | .failed m => some m
  | _ => none

/-- The `lastError` value after running attempts `attempt`, …,
`attempt + fuel - 1` starting from accumulator `le`: the message of the
last attempt that hit a hard error, or `le` when none did. -/
def lastFailAcc (oc : Nat → AttemptOutcome) : Nat → Nat → Option String → Option String
  | _, 0, le => le
  | attempt, fuel + 1, le =>
    match failMsg (attemptResult (oc attempt)) with
    | some m => lastFailAcc oc (attempt + 1) fuel (some m)
    | none => lastFailAcc oc (attempt + 1) fuel le

theorem otpLoop_success (api roll ts : String) (oc : Nat → AttemptOutcome)
    (maxA bf cap : Nat) :
    ∀ fuel attempt curDelay le k v,
      attempt + fuel = maxA + 1 →
      attempt ≤ k → k ≤ maxA →
      (∀ i, attempt ≤ i → i < k → attemptResult (oc i) = .retry404) →
      attemptResult (oc k) = .returned v →
      (otpLoop api roll ts oc maxA bf cap fuel attempt curDelay le).result =
        .ok v := by
  intro fuel
  induction fuel with
  | zero =>
    intro attempt curDelay le k v hinv hak hkm _ _
    omega
  | succ fuel ih =>
    intro attempt curDelay le k v hinv hak hkm h404 hk
    by_cases heq : attempt = k
    · subst heq
      simp [otpLoop, hk]
    · have hlt : attempt < k := by omega
      have h4 : attemptResult (oc attempt) = .retry404 :=
        h404 attempt (le_refl attempt) hlt
      have hmax : attempt < maxA := by omega
      simp only [otpLoop, h4]
      rw [if_pos hmax]
      exact ih (attempt + 1) (min (curDelay * bf) cap) le k v (by omega)
        (by omega) hkm (fun i h1 h2 => h404 i (by omega) h2) hk

theorem otpLoop_exhaust (api roll ts : String) (oc : Nat → AttemptOutcome)
    (maxA bf cap : Nat) :
    ∀ fuel attempt curDelay le,
      attempt + fuel = maxA + 1 →
      (∀ i, attempt ≤ i → i ≤ maxA → isReturned (attemptResult (oc i)) = false) →
      (otpLoop api roll ts oc maxA bf cap fuel attempt curDelay le).result =
        .error (.timeout (lastFailAcc oc attempt fuel le)) := by
  intro fuel
  induction fuel with
  | zero =>
    intro attempt curDelay le _ _
    simp [otpLoop, lastFailAcc]
  | succ fuel ih =>
    intro attempt curDelay le hinv hnr
    have hcur := hnr attempt (le_refl attempt) (by omega)
    cases hres : attemptResult (oc attempt) with
    | returned v => rw [hres] at hcur; simp [isReturned] at hcur
    | retry404 =>
      simp only [otpLoop, hres]
      by_cases hmax : attempt < maxA
      · rw [if_pos hmax]
        rw [ih (attempt + 1) (min (curDelay * bf) cap) le (by omega)
          (fun i h1 h2 => hnr i (by omega) h2)]
        simp [lastFailAcc, hres, failMsg]
      · rw [if_neg hmax]
        have hf : fuel = 0 := by omega
        subst hf
        simp [lastFailAcc, hres, failMsg]
    | failed m =>
      simp only [otpLoop, hres]
      by_cases hmax : attempt < maxA
      · rw [if_pos hmax]
        rw [ih (attempt + 1) (min (curDelay * bf) cap) (some m) (by omega)
          (fun i h1 h2 => hnr i (by omega) h2)]
        simp [lastFailAcc, hres, failMsg]
      · rw [if_neg hmax]
        have hf : fuel = 0 := by omega
        subst hf
        simp [lastFailAcc, hres, failMsg]

/-- Claim C2 (amended): with non-empty parameters, `getOTPWithBackoff`
returns the code obtained on attempt `k` whenever attempts `1..k-1` were
`404` and attempt `k` produced a success response with a truthy (non-zero)
`otp` value, for any `1 ≤ k ≤ maxAttempts`; and when no attempt yields a
code, it raises the timeout error carrying the last hard error among the
attempts as its cause (no cause when every attempt was a silent `404`). -/
theorem getOTPWithBackoff_retry_and_timeout (api roll ts : String)
    (oc : Nat → AttemptOutcome) (opts : OtpOptions)
    (hapi : ¬ api = "") (hroll : ¬ roll = "") :
    (∀ k v, 1 ≤ k → k ≤ opts.maxAttempts →
      (∀ i, 1 ≤ i → i < k → attemptResult (oc i) = .retry404) →
      attemptResult (oc k) = .returned v →
      (getOTPWithBackoff api roll ts oc opts).result = .ok v) ∧
    ((∀ i, 1 ≤ i → i ≤ opts.maxAttempts →
        isReturned (attemptResult (oc i)) = false) →
      (getOTPWithBackoff api roll ts oc opts).result =
        .error (.timeout (lastFailAcc oc 1 opts.maxAttempts none))) := by
  constructor
  · intro k v h1 hk h404 hret
    unfold getOTPWithBackoff
    rw [if_neg (by simp [hapi, hroll])]
    exact otpLoop_success api roll ts oc opts.maxAttempts opts.backoffFactor
      opts.maxDelayMs opts.maxAttempts 1 5000 none k v (by omega) h1 hk h404 hret
  · intro hnr
    unfold getOTPWithBackoff
    rw [if_neg (by simp [hapi, hroll])]
    exact otpLoop_exhaust api roll ts oc opts.maxAttempts opts.backoffFactor
      opts.maxDelayMs opts.maxAttempts 1 5000 none (by omega) hnr

/-- The outcome function of a run where attempt 1 gets `404` and attempt 2
gets a valid code. -/
def ocLate : Nat → AttemptOutcome
  | 2 => .success (some 123456) "2025-01-01T00:00:00Z"
  | _ => .notFound

/-- The outcome function of a run where attempt 3 hits a hard HTTP error
and every other attempt gets `404`. -/
def ocFailThird : Nat → AttemptOutcome
  | 3 => .httpError 500 "boom"
  | _ => .notFound

/-- Witness for C2: a 404-then-success run returns the code on attempt 2;
a run of 404s with one HTTP 500 exhausts all four default attempts and
raises the timeout error whose cause is the HTTP 500 message. -/
theorem getOTPWithBackoff_retry_and_timeout_witness :
    (getOTPWithBackoff "http://otp.example" "21CS10012" "t0" ocLate
      defaultOtpOptions).result = .ok 123456 ∧
    (getOTPWithBackoff "http://otp.example" "21CS10012" "t0" ocFailThird
      defaultOtpOptions).result =
      .error (.timeout (some "API responded with HTTP 500: boom")) :=
  ⟨(getOTPWithBackoff_retry_and_timeout "http://otp.example" "21CS10012" "t0"
      ocLate defaultOtpOptions (by decide) (by decide)).1 2 123456
      (by decide) (by decide)
      (by
        intro i h1 h2
        have : i = 1 := by omega
        subst this
        decide)
      (by decide),
   by
    have h := (getOTPWithBackoff_retry_and_timeout "http://otp.example"
      "21CS10012" "t0" ocFailThird defaultOtpOptions (by decide) (by decide)).2
      (by
        intro i h1 h2
        have h4 : i ≤ 4 := h2
        interval_cases i <;> decide)
    rw [h]
    rfl⟩

/-- Counterexample to C2 as stated: the service responds on the first
attempt with a success body that carries the `otp` field with value `0`;
the truthiness check `data && data.otp` rejects it, so the call does not
return `0` — it exhausts all attempts and times out with the
missing-or-empty message as cause. -/
def ocZero : Nat → AttemptOutcome := fun _ => .success (some 0) "t"

theorem getOTPWithBackoff_zero_otp_not_returned :
    ocZero 1 = .success (some 0) "t" ∧
    (getOTPWithBackoff "http://otp.example" "21CS10012" "t0" ocZero
      defaultOtpOptions).result =
      .error (.timeout (some "API response was OK but OTP was missing or empty.")) ∧
    ¬ (getOTPWithBackoff "http://otp.example" "21CS10012" "t0" ocZero
      defaultOtpOptions).result = .ok 0 := by
  refine ⟨rfl, rfl, ?_⟩
  intro h
  exact absurd h (by decide)

/-- The successive retry delays: starting at `d`, each inter-attempt sleep
is followed by `delay = min (delay * bf) cap`. -/
def delaySeq (bf cap : Nat) : Nat → Nat → List Nat
  | _, 0 => []
  | d, fuel + 1 => d :: delaySeq bf cap (min (d * bf) cap) fuel

theorem otpLoop_sleep_shape (api roll ts : String) (oc : Nat → AttemptOutcome)
    (maxA bf cap : Nat) :
    ∀ fuel attempt curDelay le,
      attempt + fuel = maxA + 1 →
      (∃ k, k ≤ fuel - 1 ∧
        (otpLoop api roll ts oc maxA bf cap fuel attempt curDelay le).sleeps =
          List.take k (delaySeq bf cap curDelay fuel)) ∧
      (∀ u ∈ (otpLoop api roll ts oc maxA bf cap fuel attempt curDelay le).urls,
        u = mkOtpUrl api roll ts) := by
  intro fuel
  induction fuel with
  | zero =>
    intro attempt curDelay le hinv
    exact ⟨⟨0, by omega, by simp [otpLoop]⟩, by simp [otpLoop]⟩
  | succ fuel ih =>
    intro attempt curDelay le hinv
    cases hres : attemptResult (oc attempt) with
    | returned v =>
      refine ⟨⟨0, by omega, ?_⟩, ?_⟩
      · simp [otpLoop, hres]
      · intro u hu
        simp [otpLoop, hres] at hu
        simp [hu]
    | retry404 =>
      by_cases hmax : attempt < maxA
      · obtain ⟨⟨k, hk, hsl⟩, hurls⟩ :=
          ih (attempt + 1) (min (curDelay * bf) cap) le (by omega)
        refine ⟨⟨k + 1, by omega, ?_⟩, ?_⟩
        · simp only [otpLoop, hres, if_pos hmax, delaySeq, List.take_succ_cons]
          rw [hsl]
        · intro u hu
          simp only [otpLoop, hres, if_pos hmax, List.mem_cons] at hu
          rcases hu with hu | hu
          · simp [hu]
          · exact hurls u hu
      · refine ⟨⟨0, by omega, ?_⟩, ?_⟩
        · simp [otpLoop, hres, hmax]
        · intro u hu
          simp [otpLoop, hres, hmax] at hu
          simp [hu]
    | failed m =>
      by_cases hmax : attempt < maxA
      · obtain ⟨⟨k, hk, hsl⟩, hurls⟩ :=
          ih (attempt + 1) (min (curDelay * bf) cap) (some m) (by omega)
        refine ⟨⟨k + 1, by omega, ?_⟩, ?_⟩
        · simp only [otpLoop, hres, if_pos hmax, delaySeq, List.take_succ_cons]
          rw [hsl]
        · intro u hu
          simp only [otpLoop, hres, if_pos hmax, List.mem_cons] at hu
          rcases hu with hu | hu
          · simp [hu]
          · exact hurls u hu
      · refine ⟨⟨0, by omega, ?_⟩, ?_⟩
        · simp [otpLoop, hres, hmax]
        · intro u hu
          simp [otpLoop, hres, hmax] at hu
          simp [hu]

/-- Claim C8: with the default options, the call sleeps the 10-second
initial delay exactly once before the first attempt; the inter-attempt
sleeps are, in order, a prefix of `5000, 10000, 20000` milliseconds (the
retry delay starts at 5 s and doubles after each inter-attempt sleep,
capped at 30 s — never reached within 4 attempts); and every attempt's
lookup URL embeds the same `requestedAt` timestamp captured once at the
start of the call. -/
theorem getOTPWithBackoff_default_schedule (api roll ts : String)
    (oc : Nat → AttemptOutcome) (hapi : ¬ api = "") (hroll : ¬ roll = "") :
    (∃ k, k ≤ 3 ∧
      (getOTPWithBackoff api roll ts oc defaultOtpOptions).sleeps =
        10000 :: List.take k [5000, 10000, 20000]) ∧
    (∀ u ∈ (getOTPWithBackoff api roll ts oc defaultOtpOptions).urls,
      u = mkOtpUrl api roll ts) := by
  obtain ⟨⟨k, hk, hsl⟩, hurls⟩ :=
    otpLoop_sleep_shape api roll ts oc 4 2 30000 4 1 5000 none (by omega)
  have hseq : delaySeq 2 30000 5000 4 = [5000, 10000, 20000, 30000] := rfl
  rw [hseq] at hsl
  have htk : List.take k [5000, 10000, 20000, 30000] =
      List.take k [5000, 10000, 20000] := by
    have h3 : List.take 3 [5000, 10000, 20000, 30000] = [5000, 10000, 20000] := rfl
    rw [← h3, List.take_take, Nat.min_eq_left (by omega)]
  have hun : getOTPWithBackoff api roll ts oc defaultOtpOptions =
      ⟨10000 :: (otpLoop api roll ts oc 4 2 30000 4 1 5000 none).sleeps,
       (otpLoop api roll ts oc 4 2 30000 4 1 5000 none).urls,
       (otpLoop api roll ts oc 4 2 30000 4 1 5000 none).result⟩ := by
    unfold getOTPWithBackoff
    rw [if_neg (by simp [hapi, hroll])]
    rfl
  constructor
  · refine ⟨k, by omega, ?_⟩
    rw [hun]
    show 10000 :: (otpLoop api roll ts oc 4 2 30000 4 1 5000 none).sleeps =
      10000 :: List.take k [5000, 10000, 20000]
    rw [hsl, htk]
  · intro u hu
    rw [hun] at hu
    exact hurls u hu

/-- Witness for C8: a run of four silent 404s against the default options
sleeps 10 s once, then 5 s, 10 s, 20 s between the four attempts, and all
four URLs carry the same timestamp. -/
theorem getOTPWithBackoff_default_schedule_witness :
    (∃ k, k ≤ 3 ∧
      (getOTPWithBackoff "http://otp.example" "21CS10012" "t0"
        (fun _ => .notFound) defaultOtpOptions).sleeps =
        10000 :: List.take k [5000, 10000, 20000]) ∧
    (∀ u ∈ (getOTPWithBackoff "http://otp.example" "21CS10012" "t0"
        (fun _ => .notFound) defaultOtpOptions).urls,
      u = mkOtpUrl "http://otp.example" "21CS10012" "t0") :=
  getOTPWithBackoff_default_schedule "http://otp.example" "21CS10012" "t0"
    (fun _ => .notFound) (by decide) (by decide)

/-! ## `src/schema/session.ts` — `AuthCredentialsSchema`

The zod schema: `rollNo` must match `^[0-9]{2}[A-Z]{2}[0-9]{5}$` and is
then trimmed and upper-cased; `password` must be non-empty; the
`securityAnswers` record must hold exactly 3 entries, every key and value
non-empty after trimming, and is then rebuilt by `Object.fromEntries` over
the trimmed entries.  A record (JavaScript object) is modelled as an
association list; `Object.fromEntries` keeps first-insertion key order
with last-value-wins. -/

structure RawCredentials where
  rollNo : String
  password : String
  securityAnswers : List (String × String)
deriving DecidableEq, Repr

structure AuthCredentials where
  rollNo : String
  password : String
  securityAnswers : List (String × String)
deriving DecidableEq, Repr

/-- Keys of an entry list in first-occurrence order, deduplicated. -/
def firstOccKeys : List (String × String) → List String
  | [] => []
  | (k, _) :: rest => k :: (firstOccKeys rest).filter (fun k2 => ¬ k2 = k)

/-- The value the last entry with key `k` carries (`d` if there is none). -/
def lastVal (k : String) (l : List (String × String)) (d : String) : String :=
  ((l.filter (fun p => p.1 = k)).map Prod.snd).getLastD d

/-- Model of `Object.fromEntries`: first-occurrence key order, last value
wins. -/
def fromEntries (l : List (String × String)) : List (String × String) :=
  (firstOccKeys l).map (fun k => (k, lastVal k l ""))

def isDigit09 (c : Char) : Bool := 48 ≤ c.toNat && c.toNat ≤ 57

def isUpperAZ (c : Char) : Bool := 65 ≤ c.toNat && c.toNat ≤ 90

/-- The regex `^[0-9]{2}[A-Z]{2}[0-9]{5}$`. -/
def rollNoFormatOk (s : String) : Bool :=
  match s.data with
  | [a, b, c, d, e, f, g, h, i] =>
    isDigit09 a && isDigit09 b && isUpperAZ c && isUpperAZ d &&
    isDigit09 e && isDigit09 f && isDigit09 g && isDigit09 h && isDigit09 i
  | _ => false

def jsToUpper (s : String) : String :=
  String.mk (s.data.map Char.toUpper)

/-- The zod validation pipeline of `AuthCredentialsSchema`: `none` models
a validation failure, `some` the parsed (transformed) credentials. -/
def AuthCredentialsSchema (raw : RawCredentials) : Option AuthCredentials :=
  if rollNoFormatOk raw.rollNo = true ∧
      1 ≤ raw.password.length ∧
      raw.securityAnswers.length = 3 ∧
      (∀ p ∈ raw.securityAnswers,
        0 < (jsTrim p.1).length ∧ 0 < (jsTrim p.2).length) then
    some { rollNo := jsToUpper (jsTrim raw.rollNo)
           password := raw.password
           securityAnswers :=
             fromEntries (raw.securityAnswers.map
               (fun p => (jsTrim p.1, jsTrim p.2))) }
  else none

/-! ## Claim C9 -/

theorem firstOccKeys_length_le :
    ∀ l : List (String × String), (firstOccKeys l).length ≤ l.length := by
  intro l
  induction l with
  | nil => simp [firstOccKeys]
  | cons p rest ih =>
    obtain ⟨k, v⟩ := p
    simp only [firstOccKeys, List.length_cons]
    have := List.length_filter_le (fun k2 => ¬ k2 = k) (firstOccKeys rest)
    omega

theorem firstOccKeys_subset :
    ∀ (l : List (String × String)) (a : String),
      a ∈ firstOccKeys l → a ∈ l.map Prod.fst := by
  intro l
  induction l with
  | nil => intro a ha; simp [firstOccKeys] at ha
  | cons p rest ih =>
    obtain ⟨k, v⟩ := p
    intro a ha
    simp only [firstOccKeys, List.mem_cons] at ha
    rcases ha with ha | ha
    · simp [ha]
    · have := ih a (List.mem_of_mem_filter ha)
      simp [this]

theorem firstOccKeys_nodup_eq :
    ∀ l : List (String × String), (l.map Prod.fst).Nodup →
      firstOccKeys l = l.map Prod.fst := by
  intro l
  induction l with
  | nil => intro _; rfl
  | cons p rest ih =>
    obtain ⟨k, v⟩ := p
    intro hnd
    simp only [List.map_cons, List.nodup_cons] at hnd
    simp only [firstOccKeys, List.map_cons]
    rw [ih hnd.2]
    congr 1
    apply List.filter_eq_self.mpr
    intro x hx
    simp only [decide_eq_true_eq]
    intro hxk
    exact hnd.1 (hxk ▸ hx)

theorem getLastD_mem :
    ∀ (l : List String) (d : String), ¬ l = [] → l.getLastD d ∈ l := by
  intro l
  induction l with
  | nil => intro d h; exact absurd rfl h
  | cons a rest ih =>
    intro d _
    by_cases hrest : rest = []
    · subst hrest
      simp
    · rw [List.getLastD_cons]
      exact List.mem_cons_of_mem a (ih a hrest)

theorem lastVal_mem :
    ∀ (l : List (String × String)) (k d : String), k ∈ l.map Prod.fst →
      lastVal k l d ∈ l.map Prod.snd := by
  intro l k d hk
  obtain ⟨p, hp, hpk⟩ := List.mem_map.mp hk
  have hfil : p ∈ l.filter (fun q => q.1 = k) :=
    List.mem_filter.mpr ⟨hp, by simp [hpk]⟩
  have hne : ¬ ((l.filter (fun q => q.1 = k)).map Prod.snd) = [] := by
    intro hcon
    rw [List.map_eq_nil_iff] at hcon
    rw [hcon] at hfil
    simp at hfil
  have := getLastD_mem ((l.filter (fun q => q.1 = k)).map Prod.snd) d hne
  unfold lastVal
  obtain ⟨q, hq, hqv⟩ := List.mem_map.mp this
  rw [← hqv]
  exact List.mem_map.mpr ⟨q, List.mem_of_mem_filter hq, rfl⟩

theorem string_ne_empty_of_length_pos {s : String} (h : 0 < s.length) :
    ¬ s = "" := by
  intro heq
  subst heq
  simp at h

/-- Claim C9 (amended): for every input accepted by the credentials
schema, the resulting security-answer map has at most 3 entries — exactly
3 whenever the trimmed challenge texts are pairwise distinct (trimming two
distinct raw keys to the same text collapses them, last value winning) —
and every key and value of the result is already trimmed and non-empty. -/
theorem authCredentialsSchema_entries (raw : RawCredentials)
    (out : AuthCredentials) (h : AuthCredentialsSchema raw = some out) :
    out.securityAnswers.length ≤ 3 ∧
    ((raw.securityAnswers.map (fun p => jsTrim p.1)).Nodup →
      out.securityAnswers.length = 3) ∧
    (∀ p ∈ out.securityAnswers,
      jsTrim p.1 = p.1 ∧ ¬ p.1 = "" ∧ jsTrim p.2 = p.2 ∧ ¬ p.2 = "") := by
  unfold AuthCredentialsSchema at h
  split at h
  case isFalse => exact absurd h (by simp)
  case isTrue hcond =>
    obtain ⟨hroll, hpw, hlen, hval⟩ := hcond
    injection h with h'
    have hsa : out.securityAnswers =
        fromEntries (raw.securityAnswers.map (fun p => (jsTrim p.1, jsTrim p.2))) := by
      rw [← h']
    have hmapfst :
        (raw.securityAnswers.map (fun p => (jsTrim p.1, jsTrim p.2))).map Prod.fst =
          raw.securityAnswers.map (fun p => jsTrim p.1) := by
      rw [List.map_map]
      rfl
    refine ⟨?_, ?_, ?_⟩
    · rw [hsa]
      unfold fromEntries
      rw [List.length_map]
      have h1 := firstOccKeys_length_le
        (raw.securityAnswers.map (fun p => (jsTrim p.1, jsTrim p.2)))
      rw [List.length_map] at h1
      omega
    · intro hnd
      rw [hsa]
      unfold fromEntries
      rw [List.length_map, firstOccKeys_nodup_eq _ (hmapfst ▸ hnd), hmapfst,
        List.length_map, hlen]
    · intro p hp
      rw [hsa] at hp
      unfold fromEntries at hp
      obtain ⟨k, hk, hkp⟩ := List.mem_map.mp hp
      have hkfst := firstOccKeys_subset _ k hk
      have hkraw : k ∈ raw.securityAnswers.map (fun p => jsTrim p.1) :=
        hmapfst ▸ hkfst
      obtain ⟨q, hq, hqk⟩ := List.mem_map.mp hkraw
      have hvmem := lastVal_mem _ k "" hkfst
      have hvraw : lastVal k (raw.securityAnswers.map
          (fun p => (jsTrim p.1, jsTrim p.2))) "" ∈
          raw.securityAnswers.map (fun p => jsTrim p.2) := by
        have : (raw.securityAnswers.map (fun p => (jsTrim p.1, jsTrim p.2))).map
            Prod.snd = raw.securityAnswers.map (fun p => jsTrim p.2) := by
          rw [List.map_map]
          rfl
        rw [← this]
        exact hvmem
      obtain ⟨q2, hq2, hq2v⟩ := List.mem_map.mp hvraw
      rw [← hkp]
      refine ⟨?_, ?_, ?_, ?_⟩
      · rw [← hqk, jsTrim_idem]
      · rw [← hqk]
        exact string_ne_empty_of_length_pos (hval q hq).1
      · rw [← hq2v, jsTrim_idem]
      · rw [← hq2v]
        exact string_ne_empty_of_length_pos (hval q2 hq2).2

/-- A well-formed credentials object with three distinct challenge texts. -/
def credSampleRaw : RawCredentials :=
  { rollNo := "21CS10012"
    password := "hunter2"
    securityAnswers :=
      [("First school?", " Little Flower "), ("Pet name?", "Rex"),
       ("Favourite food?", "Dosa")] }

def credSampleOut : AuthCredentials :=
  { rollNo := "21CS10012"
    password := "hunter2"
    securityAnswers :=
      [("First school?", "Little Flower"), ("Pet name?", "Rex"),
       ("Favourite food?", "Dosa")] }

/-- Witness for the amended C9: a validated credentials object whose
trimmed challenge texts are distinct keeps all 3 trimmed entries. -/
theorem authCredentialsSchema_entries_witness :
    AuthCredentialsSchema credSampleRaw = some credSampleOut ∧
    (credSampleOut.securityAnswers.length ≤ 3 ∧
      ((credSampleRaw.securityAnswers.map (fun p => jsTrim p.1)).Nodup →
        credSampleOut.securityAnswers.length = 3) ∧
      (∀ p ∈ credSampleOut.securityAnswers,
        jsTrim p.1 = p.1 ∧ ¬ p.1 = "" ∧ jsTrim p.2 = p.2 ∧ ¬ p.2 = "")) :=
  ⟨by decide,
   authCredentialsSchema_entries credSampleRaw credSampleOut (by decide)⟩

/-- Counterexample to C9 as stated: the object
`{"q": "a", "q ": "b", "r": "c"}` passes validation (3 entries, all keys
and values non-empty after trimming), but the transform trims `"q"` and
`"q "` to the same key, so the resulting map has 2 entries, not 3. -/
theorem authCredentialsSchema_collapses_to_two :
    AuthCredentialsSchema
      { rollNo := "21CS10012", password := "pw",
        securityAnswers := [("q", "a"), ("q ", "b"), ("r", "c")] } =
      some { rollNo := "21CS10012", password := "pw",
             securityAnswers := [("q", "b"), ("r", "c")] } ∧
    ¬ (2 : Nat) = 3 := by
  constructor
  · decide
  · decide

/-! ## `src/playwright/session.ts` — `ErpSession` (second revision)

`login()` is a straight-line flow over browser/portal effects:

1. `isSessionAlive()` — navigate to the welcome URL and test the landing
   URL (outcome `alive1`; the navigation leaves cookie jar `jarAfterProbe1`).
2. If alive: `_saveSessionToken()` (read the current jar, persist the
   `ssoToken` cookie — throwing when absent/empty) and return.
3. Else `readSessionTokenFromFile()` (`store0`, trimmed; `null` when the
   file does not exist).  If truthy: clear cookies, inject it as `ssoToken`,
   probe again (`alive2`); if now alive, return — nothing is persisted.
4. Else full login: navigate to the login page and wait for the username
   field (`navOk`), fill roll number and password, wait for the security
   panel (`secPanelOk`), read the challenge text (`questionText`), look up
   the trimmed text in the answers map (`!answer` throws), fill the
   answer, click the OTP button, await `getOTPWithBackoff` (`otpResult`),
   fill the code and submit (jar afterwards: `jarAfterSubmit`), then
   `_saveSessionToken()`.

The `catch` in `login()` logs and rethrows a generic
`Login failed for roll number …` error; the model keeps the inner error
kind, which is what the spec's error taxonomy names. -/

inductive LoginError where
  | navigationFailed
  | securityPanelMissing
  | questionMissing
  | challengeAnswerMissing
  | otpFailed
  | sessionTokenMissing
deriving DecidableEq, Repr

inductive Ev where
  | probeLiveness
  | readStore
  | injectCookie
  | navLoginPage
  | fillCredentials
  | fillSecurityAnswer
  | clickOtpButton
  | fetchOtp
  | fillOtpAndSubmit
  | saveToken (v : String)
deriving DecidableEq, Repr

def isSaveToken : Ev → Bool
  | .saveToken _ => true
  | _ => false

structure Cookie where
  name : String
  value : String
deriving DecidableEq, Repr

structure LoginWorld where
  alive1 : Bool
  jarAfterProbe1 : List Cookie
  store0 : Option String
  alive2 : Bool
  jarAfterProbe2 : List Cookie
  navOk : Bool
  secPanelOk : Bool
  questionText : Option String
  otpResult : Except String Int
  jarAfterSubmit : List Cookie
deriving DecidableEq, Repr

structure LoginResult where
  result : Except LoginError Unit
  events : List Ev
  store : Option String
deriving DecidableEq, Repr

/-- `cookies.find(c => c.name === "ssoToken")?.value`. -/
def findSsoToken (jar : List Cookie) : Option String :=
  (jar.find? (fun c => c.name == "ssoToken")).map (fun c => c.value)

/-- `_saveSessionToken`: throw unless the `ssoToken` cookie is present
with a truthy value; write it to the single-slot store. -/
def saveSessionToken (jar : List Cookie) :
    Except LoginError (Option String) × List Ev :=
  match findSsoToken jar with
  | none => (.error .sessionTokenMissing, [])
  | some v =>
    if v = "" then (.error .sessionTokenMissing, [])
    else (.ok (some v), [.saveToken v])

/-- `securityAnswers[question]` on the record. -/
def recordGet (l : List (String × String)) (k : String) : Option String :=
  (l.find? (fun p => p.1 == k)).map Prod.snd

/-- The full-login sequence: `_navigateToLoginPage`, `_fillCredentials`,
`_handleSecurityQuestion`, `_submitOtp`, then `_saveSessionToken`. -/
def fullLogin (ans : List (String × String)) (w : LoginWorld)
    (store : Option String) : LoginResult :=
  if w.navOk = false then ⟨.error .navigationFailed, [.navLoginPage], store⟩
  else if w.secPanelOk = false then
    ⟨.error .securityPanelMissing, [.navLoginPage, .fillCredentials], store⟩
  else
    match w.questionText.map jsTrim with
    | none =>
      ⟨.error .questionMissing, [.navLoginPage, .fillCredentials], store⟩
    | some q =>
      if q = "" then
        ⟨.error .questionMissing, [.navLoginPage, .fillCredentials], store⟩
      else
        match recordGet ans q with
        | none =>
          ⟨.error .challengeAnswerMissing, [.navLoginPage, .fillCredentials], store⟩
        | some a =>
          if a = "" then
            ⟨.error .challengeAnswerMissing, [.navLoginPage, .fillCredentials], store⟩
          else
            match w.otpResult with
            | .error _ =>
              ⟨.error .otpFailed,
               [.navLoginPage, .fillCredentials, .fillSecurityAnswer,
                .clickOtpButton, .fetchOtp], store⟩
            | .ok _ =>
              match saveSessionToken w.jarAfterSubmit with
              | (.error e, evS) =>
                ⟨.error e,
                 [.navLoginPage, .fillCredentials, .fillSecurityAnswer,
                  .clickOtpButton, .fetchOtp, .fillOtpAndSubmit] ++ evS, store⟩
              | (.ok st, evS) =>
                ⟨.ok (),
                 [.navLoginPage, .fillCredentials, .fillSecurityAnswer,
                  .clickOtpButton, .fetchOtp, .fillOtpAndSubmit] ++ evS, st⟩

/-- Whether the stored token read from file is truthy (the
`if (savedSessionToken)` check: `null` and `""` are falsy). -/
def storedUsable (w : LoginWorld) : Bool :=
  match w.store0.map jsTrim with
  | none => false
  | some t => !(t == "")

/-- `ErpSession.login` (second revision). -/
def login (ans : List (String × String)) (w : LoginWorld) : LoginResult :=
  if w.alive1 then
    match saveSessionToken w.jarAfterProbe1 with
    | (.ok st, evS) => ⟨.ok (), .probeLiveness :: evS, st⟩
    | (.error e, evS) => ⟨.error e, .probeLiveness :: evS, w.store0⟩
  else
    match w.store0.map jsTrim with
    | some tok =>
      if tok = "" then
        let r := fullLogin ans w w.store0
        ⟨r.result, .probeLiveness :: .readStore :: r.events, r.store⟩
      else if w.alive2 then
        ⟨.ok (), [.probeLiveness, .readStore, .injectCookie, .probeLiveness],
         w.store0⟩
      else
        let r := fullLogin ans w w.store0
        ⟨r.result,
         [.probeLiveness, .readStore, .injectCookie, .probeLiveness] ++ r.events,
         r.store⟩
    | none =>
      let r := fullLogin ans w w.store0
      ⟨r.result, .probeLiveness :: .readStore :: r.events, r.store⟩

/-! ## Claims C3, C5, C6 -/

theorem saveSessionToken_cases (jar : List Cookie) :
    (∃ v, findSsoToken jar = some v ∧ ¬ v = "" ∧
      saveSessionToken jar = (.ok (some v), [.saveToken v])) ∨
    ((findSsoToken jar = none ∨ findSsoToken jar = some "") ∧
      saveSessionToken jar = (.error .sessionTokenMissing, [])) := by
  unfold saveSessionToken
  cases hf : findSsoToken jar with
  | none => exact Or.inr ⟨Or.inl rfl, rfl⟩
  | some v =>
    by_cases hv : v = ""
    · subst hv
      exact Or.inr ⟨Or.inr rfl, by simp⟩
    · exact Or.inl ⟨v, rfl, hv, by simp [hv]⟩

theorem fullLogin_nav_mem (ans : List (String × String)) (w : LoginWorld)
    (store : Option String) :
    Ev.navLoginPage ∈ (fullLogin ans w store).events := by
  unfold fullLogin saveSessionToken
  repeat' split
  all_goals simp

/-- When the first probe is stale and the stored token is unusable or its
probe stale too, `login` delegates to the full-login flow, prefixing only
probe/read/inject bookkeeping events. -/
theorem login_full_path (ans : List (String × String)) (w : LoginWorld)
    (h1 : w.alive1 = false)
    (h2 : storedUsable w = false ∨ w.alive2 = false) :
    (login ans w).result = (fullLogin ans w w.store0).result ∧
    (login ans w).store = (fullLogin ans w w.store0).store ∧
    ∃ pre, (login ans w).events = pre ++ (fullLogin ans w w.store0).events ∧
      ∀ e ∈ pre, e = Ev.probeLiveness ∨ e = Ev.readStore ∨ e = Ev.injectCookie := by
  cases hst : w.store0 with
  | none =>
    refine ⟨by simp [login, h1, hst], by simp [login, h1, hst],
      ⟨[.probeLiveness, .readStore], by simp [login, h1, hst], ?_⟩⟩
    intro e he
    simp at he
    tauto
  | some s =>
    by_cases ht : jsTrim s = ""
    · refine ⟨by simp [login, h1, hst, ht], by simp [login, h1, hst, ht],
        ⟨[.probeLiveness, .readStore], by simp [login, h1, hst, ht], ?_⟩⟩
      intro e he
      simp at he
      tauto
    · have hu : storedUsable w = true := by
        simp [storedUsable, hst]
        exact ht
      have h2f : w.alive2 = false := by
        rcases h2 with h2 | h2
        · rw [hu] at h2
          exact absurd h2 (by simp)
        · exact h2
      refine ⟨by simp [login, h1, hst, ht, h2f], by simp [login, h1, hst, ht, h2f],
        ⟨[.probeLiveness, .readStore, .injectCookie, .probeLiveness],
         by simp [login, h1, hst, ht, h2f], ?_⟩⟩
      intro e he
      simp at he
      tauto

/-- Claim C3: `login()` enters the full credential-submission sequence iff
the first liveness probe fails and the stored token is absent/unusable or
fails its probe after injection; when the first probe succeeds, no
credential fill happens, and (provided the live session's cookie jar holds
the `ssoToken` cookie) the current token is persisted before returning. -/
theorem login_skip_iff (ans : List (String × String)) (w : LoginWorld) :
    (Ev.navLoginPage ∈ (login ans w).events ↔
      (w.alive1 = false ∧ (storedUsable w = false ∨ w.alive2 = false))) ∧
    (w.alive1 = true → Ev.fillCredentials ∉ (login ans w).events) ∧
    (w.alive1 = true → ∀ v, findSsoToken w.jarAfterProbe1 = some v → ¬ v = "" →
      (login ans w).result = .ok () ∧ Ev.saveToken v ∈ (login ans w).events ∧
      (login ans w).store = some v) := by
  by_cases h1 : w.alive1
  · rcases saveSessionToken_cases w.jarAfterProbe1 with ⟨v, hf, hv, hsave⟩ | ⟨hf, hsave⟩
    · refine ⟨?_, ?_, ?_⟩
      · simp [login, h1, hsave]
      · intro _
        simp [login, h1, hsave]
      · intro _ v2 hf2 hv2
        rw [hf] at hf2
        injection hf2 with hveq
        subst hveq
        simp [login, h1, hsave]
    · refine ⟨?_, ?_, ?_⟩
      · simp [login, h1, hsave]
      · intro _
        simp [login, h1, hsave]
      · intro _ v2 hf2 hv2
        rcases hf with hf | hf <;> rw [hf] at hf2
        · exact absurd hf2 (by simp)
        · injection hf2 with hveq
          exact absurd hveq.symm hv2
  · have h1f : w.alive1 = false := by simpa using h1
    refine ⟨?_, ?_, ?_⟩
    · constructor
      · intro _
        refine ⟨h1f, ?_⟩
        by_cases hu : storedUsable w = true
        · cases hst : w.store0 with
          | none => simp [storedUsable, hst] at hu
          | some s =>
            by_cases ht : jsTrim s = ""
            · simp [storedUsable, hst, ht] at hu
            · by_cases h2 : w.alive2
              · exfalso
                rename_i hmem
                simp [login, h1f, hst, ht, h2] at hmem
              · exact Or.inr (by simpa using h2)
        · exact Or.inl (by simpa using hu)
      · rintro ⟨_, h2⟩
        obtain ⟨_, _, pre, hev, _⟩ := login_full_path ans w h1f h2
        rw [hev]
        exact List.mem_append.mpr (Or.inr (fullLogin_nav_mem ans w w.store0))
    · intro hcon
      rw [hcon] at h1f
      exact absurd h1f (by simp)
    · intro hcon
      rw [hcon] at h1f
      exact absurd h1f (by simp)

/-- Witness for C3: with a live first probe, `login` performs no
credential fill and re-persists the live cookie; with a stale probe and no
stored token, it enters the full login flow. -/
theorem login_skip_iff_witness :
    (Ev.fillCredentials ∉ (login []
      { alive1 := true, jarAfterProbe1 := [⟨"ssoToken", "tokA"⟩],
        store0 := none, alive2 := false, jarAfterProbe2 := [],
        navOk := true, secPanelOk := true, questionText := none,
        otpResult := .error "none", jarAfterSubmit := [] }).events ∧
     (login []
      { alive1 := true, jarAfterProbe1 := [⟨"ssoToken", "tokA"⟩],
        store0 := none, alive2 := false, jarAfterProbe2 := [],
        navOk := true, secPanelOk := true, questionText := none,
        otpResult := .error "none", jarAfterSubmit := [] }).result = .ok () ∧
     Ev.saveToken "tokA" ∈ (login []
      { alive1 := true, jarAfterProbe1 := [⟨"ssoToken", "tokA"⟩],
        store0 := none, alive2 := false, jarAfterProbe2 := [],
        navOk := true, secPanelOk := true, questionText := none,
        otpResult := .error "none", jarAfterSubmit := [] }).events) ∧
    (Ev.navLoginPage ∈ (login []
      { alive1 := false, jarAfterProbe1 := [], store0 := none,
        alive2 := false, jarAfterProbe2 := [], navOk := true,
        secPanelOk := true, questionText := none,
        otpResult := .error "none", jarAfterSubmit := [] }).events) := by
  constructor
  · refine ⟨(login_skip_iff [] _).2.1 rfl, ?_, ?_⟩
    · exact ((login_skip_iff [] _).2.2 rfl "tokA" (by decide) (by decide)).1
    · exact ((login_skip_iff [] _).2.2 rfl "tokA" (by decide) (by decide)).2.1
  · exact (login_skip_iff [] _).1.mpr ⟨rfl, Or.inl (by decide)⟩

theorem recordGet_mem (l : List (String × String)) (k : String)
    (hk : k ∈ l.map Prod.fst) :
    ∃ p, p ∈ l ∧ p.1 = k ∧ recordGet l k = some p.2 := by
  induction l with
  | nil => simp at hk
  | cons p rest ih =>
    by_cases hpk : p.1 = k
    · refine ⟨p, by simp, hpk, ?_⟩
      unfold recordGet
      rw [List.find?_cons_of_pos _ (by simp [hpk])]
      rfl
    · have hk2 : k ∈ rest.map Prod.fst := by
        simp only [List.map_cons, List.mem_cons] at hk
        rcases hk with hk | hk
        · exact absurd hk.symm hpk
        · exact hk
      obtain ⟨p2, hp2, hpk2, hrg⟩ := ih hk2
      refine ⟨p2, by simp [hp2], hpk2, ?_⟩
      unfold recordGet at hrg ⊢
      rw [List.find?_cons_of_neg _ (by simp [hpk])]
      exact hrg

/-- Every answer value of a schema-validated credentials object is
non-empty (shared by the C5 and C9 developments). -/
theorem schema_values_nonempty (raw : RawCredentials) (cred : AuthCredentials)
    (h : AuthCredentialsSchema raw = some cred) :
    ∀ p ∈ cred.securityAnswers, ¬ p.2 = "" := by
  unfold AuthCredentialsSchema at h
  split at h
  case isFalse => exact absurd h (by simp)
  case isTrue hcond =>
    obtain ⟨_, _, _, hval⟩ := hcond
    injection h with h'
    have hsa : cred.securityAnswers =
        fromEntries (raw.securityAnswers.map (fun p => (jsTrim p.1, jsTrim p.2))) := by
      rw [← h']
    intro p hp
    rw [hsa] at hp
    unfold fromEntries at hp
    obtain ⟨k, hk, hkp⟩ := List.mem_map.mp hp
    have hkfst := firstOccKeys_subset _ k hk
    have hvmem := lastVal_mem _ k "" hkfst
    have hsnd : (raw.securityAnswers.map (fun p => (jsTrim p.1, jsTrim p.2))).map
        Prod.snd = raw.securityAnswers.map (fun p => jsTrim p.2) := by
      rw [List.map_map]
      rfl
    rw [hsnd] at hvmem
    obtain ⟨q2, hq2, hq2v⟩ := List.mem_map.mp hvmem
    rw [← hkp]
    show ¬ lastVal k _ "" = ""
    rw [← hq2v]
    exact string_ne_empty_of_length_pos (hval q2 hq2).2

theorem fullLogin_challenge (ans : List (String × String)) (w : LoginWorld)
    (store : Option String) (hnav : w.navOk = true) (hsec : w.secPanelOk = true)
    (q : String) (hq : w.questionText = some q) (hqne : ¬ jsTrim q = "") :
    (∀ a, recordGet ans (jsTrim q) = some a → ¬ a = "" →
      Ev.fillSecurityAnswer ∈ (fullLogin ans w store).events) ∧
    (recordGet ans (jsTrim q) = none →
      (fullLogin ans w store).result = .error .challengeAnswerMissing ∧
      (fullLogin ans w store).events = [.navLoginPage, .fillCredentials]) := by
  have hsc : w.questionText.map jsTrim = some (jsTrim q) := by
    rw [hq]
    rfl
  constructor
  · intro a ha hane
    simp only [fullLogin, hnav, hsec, hsc, ha]
    simp only [hqne, hane, if_false, ite_false]
    simp [hqne, hane]
    split
    · simp
    · rcases saveSessionToken_cases w.jarAfterSubmit with ⟨v, _, _, hsave⟩ | ⟨_, hsave⟩ <;>
        rw [hsave] <;> simp
  · intro hmiss
    simp only [fullLogin, hnav, hsec, hsc, hmiss]
    simp [hqne]

/-- Claim C5: on the full-login path with the challenge panel shown, a
schema-validated credentials object whose security-answer map contains the
displayed challenge's exact trimmed text as a key makes `login` proceed to
fill the answer; when the map has no such key, `login` fails with the
challenge-answer-missing error, and neither the OTP request button is
clicked nor the OTP fetch invoked. -/
theorem login_challenge_lookup (raw : RawCredentials) (cred : AuthCredentials)
    (w : LoginWorld) (hcred : AuthCredentialsSchema raw = some cred)
    (h1 : w.alive1 = false) (h2 : storedUsable w = false ∨ w.alive2 = false)
    (hnav : w.navOk = true) (hsec : w.secPanelOk = true)
    (q : String) (hq : w.questionText = some q) (hqne : ¬ jsTrim q = "") :
    (jsTrim q ∈ cred.securityAnswers.map Prod.fst →
      Ev.fillSecurityAnswer ∈ (login cred.securityAnswers w).events) ∧
    (recordGet cred.securityAnswers (jsTrim q) = none →
      (login cred.securityAnswers w).result = .error .challengeAnswerMissing ∧
      Ev.clickOtpButton ∉ (login cred.securityAnswers w).events ∧
      Ev.fetchOtp ∉ (login cred.securityAnswers w).events) := by
  obtain ⟨hres, hstore, pre, hev, hpre⟩ :=
    login_full_path cred.securityAnswers w h1 h2
  have hch := fullLogin_challenge cred.securityAnswers w w.store0 hnav hsec
    q hq hqne
  constructor
  · intro hkey
    obtain ⟨p, hp, hpk, hrg⟩ := recordGet_mem cred.securityAnswers (jsTrim q) hkey
    have hane : ¬ p.2 = "" := schema_values_nonempty raw cred hcred p hp
    rw [hev]
    exact List.mem_append.mpr (Or.inr (hch.1 p.2 hrg hane))
  · intro hmiss
    obtain ⟨herr, hevfull⟩ := hch.2 hmiss
    refine ⟨by rw [hres, herr], ?_, ?_⟩
    · rw [hev, hevfull]
      intro hcon
      rcases List.mem_append.mp hcon with hcon | hcon
      · rcases hpre _ hcon with h | h | h <;> simp at h
      · simp at hcon
    · rw [hev, hevfull]
      intro hcon
      rcases List.mem_append.mp hcon with hcon | hcon
      · rcases hpre _ hcon with h | h | h <;> simp at h
      · simp at hcon

/-- A stale-session world showing the challenge `" Pet name? "`. -/
def challengeWorld (qt : String) : LoginWorld :=
  { alive1 := false, jarAfterProbe1 := [], store0 := none, alive2 := false,
    jarAfterProbe2 := [], navOk := true, secPanelOk := true,
    questionText := some qt, otpResult := .ok 123456,
    jarAfterSubmit := [⟨"ssoToken", "freshTok"⟩] }

/-- Witness for C5: with the validated sample credentials, the displayed
challenge `" Pet name? "` (whose trimmed text is a key) leads to the
answer being filled; the unknown challenge `"Mother maiden name?"` aborts
with the challenge-answer-missing error and no OTP activity. -/
theorem login_challenge_lookup_witness :
    (Ev.fillSecurityAnswer ∈ (login credSampleOut.securityAnswers
      (challengeWorld " Pet name? ")).events) ∧
    ((login credSampleOut.securityAnswers
        (challengeWorld "Mother maiden name?")).result =
      .error .challengeAnswerMissing ∧
     Ev.clickOtpButton ∉ (login credSampleOut.securityAnswers
        (challengeWorld "Mother maiden name?")).events ∧
     Ev.fetchOtp ∉ (login credSampleOut.securityAnswers
        (challengeWorld "Mother maiden name?")).events) := by
  constructor
  · exact (login_challenge_lookup credSampleRaw credSampleOut
      (challengeWorld " Pet name? ") (by decide) rfl (Or.inl rfl) rfl rfl
      " Pet name? " rfl (by decide)).1 (by decide)
  · exact (login_challenge_lookup credSampleRaw credSampleOut
      (challengeWorld "Mother maiden name?") (by decide) rfl (Or.inl rfl)
      rfl rfl "Mother maiden name?" rfl (by decide)).2 (by decide)

theorem fullLogin_ok_save (ans : List (String × String)) (w : LoginWorld)
    (store : Option String) (hok : (fullLogin ans w store).result = .ok ()) :
    ∃ v, findSsoToken w.jarAfterSubmit = some v ∧ ¬ v = "" ∧
      Ev.saveToken v ∈ (fullLogin ans w store).events ∧
      (fullLogin ans w store).store = some v := by
  rcases saveSessionToken_cases w.jarAfterSubmit with ⟨v, hf, hv, hsave⟩ | ⟨hf, hsave⟩
  · refine ⟨v, hf, hv, ?_, ?_⟩
    · unfold fullLogin at hok ⊢
      rw [hsave] at hok ⊢
      repeat' split at hok
      all_goals try simp_all
      all_goals rename_i heq2
      all_goals rw [← heq2.2]
      all_goals simp
    · unfold fullLogin at hok ⊢
      rw [hsave] at hok ⊢
      repeat' split at hok
      all_goals simp_all
  · exfalso
    unfold fullLogin at hok
    rw [hsave] at hok
    repeat' split at hok
    all_goals simp_all

/-- Counterexample to C6 as stated: on the restored-token success path the
session cookie is NOT extracted or persisted.  The stored token
`"oldToken"` is injected, the liveness probe passes (the portal leaving a
rotated `ssoToken` cookie `"rotatedTok"` in the jar), `login` succeeds,
no save event occurs, and the store still holds `"oldToken"`. -/
def restoreWorld : LoginWorld :=
  { alive1 := false, jarAfterProbe1 := [], store0 := some "oldToken",
    alive2 := true, jarAfterProbe2 := [⟨"ssoToken", "rotatedTok"⟩],
    navOk := true, secPanelOk := true, questionText := some "Q",
    otpResult := .ok 1, jarAfterSubmit := [] }

theorem login_restore_success_no_persist :
    (login [] restoreWorld).result = .ok () ∧
    (login [] restoreWorld).events.all (fun e => ! isSaveToken e) = true ∧
    (login [] restoreWorld).store = some "oldToken" ∧
    findSsoToken restoreWorld.jarAfterProbe2 = some "rotatedTok" := by
  refine ⟨?_, ?_, ?_, ?_⟩ <;> decide

/-- Claim C6 (amended): the session cookie is extracted and persisted
(overwriting the single slot) on the first-probe-alive path and on every
successful full-login path, and `login()` cannot succeed through full
login when the expected cookie is absent or empty after submission (it
fails, with `_saveSessionToken` throwing the token-missing error); the
restored-token success path, however, returns without persisting anything,
leaving the store at the previously stored value. -/
theorem login_persist (ans : List (String × String)) (w : LoginWorld) :
    (w.alive1 = true →
      (∀ v, findSsoToken w.jarAfterProbe1 = some v → ¬ v = "" →
        (login ans w).result = .ok () ∧ Ev.saveToken v ∈ (login ans w).events ∧
        (login ans w).store = some v) ∧
      ((findSsoToken w.jarAfterProbe1 = none ∨
          findSsoToken w.jarAfterProbe1 = some "") →
        (login ans w).result = .error .sessionTokenMissing)) ∧
    (w.alive1 = false → (storedUsable w = false ∨ w.alive2 = false) →
      ((login ans w).result = .ok () →
        ∃ v, findSsoToken w.jarAfterSubmit = some v ∧ ¬ v = "" ∧
          Ev.saveToken v ∈ (login ans w).events ∧
          (login ans w).store = some v) ∧
      ((findSsoToken w.jarAfterSubmit = none ∨
          findSsoToken w.jarAfterSubmit = some "") →
        ¬ (login ans w).result = .ok ())) ∧
    (w.alive1 = false → storedUsable w = true → w.alive2 = true →
      (login ans w).result = .ok () ∧
      (∀ v, Ev.saveToken v ∉ (login ans w).events) ∧
      (login ans w).store = w.store0) := by
  refine ⟨?_, ?_, ?_⟩
  · intro h1
    rcases saveSessionToken_cases w.jarAfterProbe1 with ⟨v, hf, hv, hsave⟩ | ⟨hf, hsave⟩
    · constructor
      · intro v2 hf2 hv2
        rw [hf] at hf2
        injection hf2 with hveq
        subst hveq
        simp [login, h1, hsave]
      · intro hcon
        rcases hcon with hc | hc <;> rw [hf] at hc
        · exact absurd hc (by simp)
        · injection hc with hc2
          exact absurd hc2 hv
    · constructor
      · intro v2 hf2 hv2
        rcases hf with hf | hf <;> rw [hf] at hf2
        · exact absurd hf2 (by simp)
        · injection hf2 with hveq
          exact absurd hveq.symm hv2
      · intro _
        simp [login, h1, hsave]
  · intro h1 h2
    obtain ⟨hres, hstore, pre, hev, hpre⟩ := login_full_path ans w h1 h2
    constructor
    · intro hok
      rw [hres] at hok
      obtain ⟨v, hf, hv, hmem, hst⟩ := fullLogin_ok_save ans w w.store0 hok
      refine ⟨v, hf, hv, ?_, ?_⟩
      · rw [hev]
        exact List.mem_append.mpr (Or.inr hmem)
      · rw [hstore, hst]
    · intro hcook hok
      rw [hres] at hok
      obtain ⟨v, hf, hv, _, _⟩ := fullLogin_ok_save ans w w.store0 hok
      rcases hcook with hc | hc <;> rw [hc] at hf
      · exact absurd hf (by simp)
      · injection hf with hveq
        exact absurd hveq.symm hv
  · intro h1 hu h2
    cases hst : w.store0 with
    | none => simp [storedUsable, hst] at hu
    | some s =>
      by_cases ht : jsTrim s = ""
      · simp [storedUsable, hst, ht] at hu
      · refine ⟨by simp [login, h1, hst, ht, h2], ?_, by simp [login, h1, hst, ht, h2]⟩
        intro v
        simp [login, h1, hst, ht, h2]

/-- Witness for the amended C6: the first-probe-alive path persists the
live cookie, and a successful full login persists the freshly issued
cookie; the restored-token path is exercised by the counterexample. -/
theorem login_persist_witness :
    ((login []
      { alive1 := true, jarAfterProbe1 := [⟨"ssoToken", "liveTok"⟩],
        store0 := some "staleTok", alive2 := false, jarAfterProbe2 := [],
        navOk := true, secPanelOk := true, questionText := none,
        otpResult := .error "none", jarAfterSubmit := [] }).result = .ok () ∧
     Ev.saveToken "liveTok" ∈ (login []
      { alive1 := true, jarAfterProbe1 := [⟨"ssoToken", "liveTok"⟩],
        store0 := some "staleTok", alive2 := false, jarAfterProbe2 := [],
        navOk := true, secPanelOk := true, questionText := none,
        otpResult := .error "none", jarAfterSubmit := [] }).events ∧
     (login []
      { alive1 := true, jarAfterProbe1 := [⟨"ssoToken", "liveTok"⟩],
        store0 := some "staleTok", alive2 := false, jarAfterProbe2 := [],
        navOk := true, secPanelOk := true, questionText := none,
        otpResult := .error "none", jarAfterSubmit := [] }).store =
       some "liveTok") ∧
    (∃ v, findSsoToken (challengeWorld " Pet name? ").jarAfterSubmit = some v ∧
      ¬ v = "" ∧
      Ev.saveToken v ∈ (login credSampleOut.securityAnswers
        (challengeWorld " Pet name? ")).events ∧
      (login credSampleOut.securityAnswers
        (challengeWorld " Pet name? ")).store = some v) :=
  ⟨(login_persist []
      { alive1 := true, jarAfterProbe1 := [⟨"ssoToken", "liveTok"⟩],
        store0 := some "staleTok", alive2 := false, jarAfterProbe2 := [],
        navOk := true, secPanelOk := true, questionText := none,
        otpResult := .error "none", jarAfterSubmit := [] }).1 rfl
      |>.1 "liveTok" (by decide) (by decide),
   ((login_persist credSampleOut.securityAnswers
      (challengeWorld " Pet name? ")).2.1 rfl (Or.inl rfl)).1 (by decide)⟩

/-! ## `ErpSession.close` and `src/services/notice.ts` — `scrapeNotices`

`close()` wraps `browser.close()` in a `try`/`catch` that only logs.
`scrapeNotices` composes the job: construct the session, `init()`,
`login()`, scrape, and — when there are notices — close the session, null
the variable, and post to the webhook; the `finally` block closes the
session when it is still non-null.  Each stage's outcome is environment
(`JobEnv`); the trace records the externally visible `close()` calls and
webhook posts in order. -/

/-- `close()`: returns normally in every case; the second component
records whether a teardown failure was logged (a launched browser whose
`close()` threw). -/
def closeSession (browserLaunched closeThrows : Bool) :
    Except String Unit × Bool :=
  if browserLaunched then
    if closeThrows then (.ok (), true)
    else (.ok (), false)
  else (.ok (), false)

structure JobEnv where
  initOk : Bool
  loginOk : Bool
  scrapeResult : Except String (List Notice)
  webhookOk : Bool
deriving Repr

inductive JobEv where
  | closeSession
  | webhookPost
deriving DecidableEq, Repr

/-- `scrapeNotices` (the job orchestrator). -/
def scrapeNotices (rollNo : String) (e : JobEnv) :
    Except String Unit × List JobEv :=
  let failMessage :=
    "Notice scraping failed for roll number " ++ rollNo ++
      ". Check logs for details."
  if e.initOk = false then (.error failMessage, [.closeSession])
  else if e.loginOk = false then (.error failMessage, [.closeSession])
  else
    match e.scrapeResult with
    | .error _ => (.error failMessage, [.closeSession])
    | .ok newNotices =>
      if newNotices.length = 0 then (.ok (), [.closeSession])
      else if e.webhookOk then (.ok (), [.closeSession, .webhookPost])
      else (.error failMessage, [.closeSession, .webhookPost])

/-- Claim C7: `close()` never re-raises — it returns normally, logging
exactly when a launched browser's teardown threw — and the orchestrator
invokes `close()` exactly once on every terminating path (success with
delivery, success with zero results, and failure of init, login, scrape,
or webhook delivery), with the job's outcome determined solely by the
stages themselves (never masked by teardown). -/
theorem scrapeNotices_close_once (rollNo : String) (e : JobEnv) (b t : Bool) :
    closeSession b t = (.ok (), b && t) ∧
    (scrapeNotices rollNo e).2.count .closeSession = 1 ∧
    ((scrapeNotices rollNo e).1 = .ok () ↔
      (e.initOk = true ∧ e.loginOk = true ∧
        ∃ ns, e.scrapeResult = .ok ns ∧
          (ns.length = 0 ∨ e.webhookOk = true))) := by
  refine ⟨?_, ?_, ?_⟩
  · unfold closeSession
    cases b <;> cases t <;> simp
  · unfold scrapeNotices
    rcases e with ⟨i, l, sr, wo⟩
    cases i <;> cases l <;> simp
    all_goals cases sr
    all_goals simp
    all_goals rename_i ns
    all_goals by_cases hn : ns = []
    all_goals cases wo
    all_goals simp [hn]
  · unfold scrapeNotices
    rcases e with ⟨i, l, sr, wo⟩
    cases i <;> cases l <;> simp
    all_goals cases sr
    all_goals simp
    all_goals rename_i ns
    all_goals by_cases hn : ns = []
    all_goals cases wo
    all_goals simp [hn]
